import Mathlib

/-!
Verification development for the download lifecycle coordinator
(chrome/browser/download/download_manager.cc, class DownloadManager).

The coordinator's containers are shallowly embedded as follows.  The C++
code stores every `DownloadItem` exactly once (owned by the `downloads_`
set) and all other containers hold raw pointers into that collection.  We
model the heap of records as an association list `items : List (Nat ×
DownloadItem)` keyed by a pointer surrogate, the master set `downloads_`
as a list of pointers, and each `std::map` as an association list with
`std::map` insert-or-assign / erase / find semantics.  The values of
`active_downloads_` are `Option Nat` because `std::map::operator[]`
default-constructs a null pointer entry when the key is absent (this is
observable in `DownloadManager::GetActiveDownloadItem`).

Release-build semantics are modelled: `DCHECK` is a no-op, while `CHECK`
(always compiled in) is modelled by returning `none` (a crash) from the
operation.  Dereferencing a dangling or null pointer is likewise modelled
by `none` where the surrounding code cannot rule it out.  External
collaborators (history journal, file manager, network request handles,
observers) receive calls that are recorded in an event trace `events`.
-/

/-! ## Association-list maps with std::map semantics -/

/-- Lookup in an association list; mirrors `std::map::find`. -/
def afind {κ α : Type} [DecidableEq κ] : List (κ × α) → κ → Option α
  | [], _ => none
  | (k2, v) :: rest, k => if k2 = k then some v else afind rest k

/-- Insert-or-assign; mirrors `std::map::operator[]` followed by assignment. -/
def ainsert {κ α : Type} [DecidableEq κ] : List (κ × α) → κ → α → List (κ × α)
  | [], k, v => [(k, v)]
  | (k2, v2) :: rest, k, v =>
      if k2 = k then (k, v) :: rest else (k2, v2) :: ainsert rest k v

/-- Erase by key; mirrors `std::map::erase(key)`. -/
def aerase {κ α : Type} [DecidableEq κ] (m : List (κ × α)) (k : κ) : List (κ × α) :=
  m.filter (fun p => decide (p.1 ≠ k))

/-- Key membership; mirrors `ContainsKey` / `std::map::count(key) != 0`. -/
def acontains {κ α : Type} [DecidableEq κ] (m : List (κ × α)) (k : κ) : Bool :=
  (afind m k).isSome

/-- The keys of an association list. -/
def akeys {κ α : Type} (m : List (κ × α)) : List κ :=
  m.map Prod.fst

/-- Insert into a pointer set; mirrors `std::set::insert`. -/
def sinsert (l : List Nat) (x : Nat) : List Nat :=
  if x ∈ l then l else l ++ [x]

/-- Erase from a pointer set; mirrors `std::set::erase`. -/
def serase (l : List Nat) (x : Nat) : List Nat :=
  l.filter (fun y => decide (y ≠ x))

/-! ## Basic lemmas about the map operations -/

theorem afind_ainsert_self {κ α : Type} [DecidableEq κ] (m : List (κ × α)) (k : κ) (v : α) :
    afind (ainsert m k v) k = some v := by
  induction m with
  | nil => simp [ainsert, afind]
  | cons hd tl ih =>
    by_cases h : hd.1 = k
    · simp [ainsert, afind, h]
    · simpa [ainsert, afind, h] using ih

theorem afind_ainsert_ne {κ α : Type} [DecidableEq κ] (m : List (κ × α)) (k k' : κ) (v : α)
    (h : k ≠ k') : afind (ainsert m k v) k' = afind m k' := by
  induction m with
  | nil => simp [ainsert, afind, h]
  | cons hd tl ih =>
    by_cases h2 : hd.1 = k
    · subst h2
      simp [ainsert, afind, h]
    · simp only [ainsert, if_neg h2]
      by_cases h3 : hd.1 = k'
      · simp [afind, h3]
      · simp [afind, h3, ih]

theorem ainsert_cons {κ α : Type} [DecidableEq κ] (k1 : κ) (v1 : α) (tl : List (κ × α))
    (k : κ) (v : α) :
    ainsert ((k1, v1) :: tl) k v =
      if k1 = k then (k, v) :: tl else (k1, v1) :: ainsert tl k v := rfl

theorem aerase_nil {κ α : Type} [DecidableEq κ] (k : κ) :
    aerase ([] : List (κ × α)) k = [] := rfl

theorem aerase_cons {κ α : Type} [DecidableEq κ] (hd : κ × α) (tl : List (κ × α)) (k : κ) :
    aerase (hd :: tl) k = if hd.1 = k then aerase tl k else hd :: aerase tl k := by
  by_cases h : hd.1 = k <;> simp [aerase, List.filter_cons, h]

theorem afind_aerase_self {κ α : Type} [DecidableEq κ] (m : List (κ × α)) (k : κ) :
    afind (aerase m k) k = none := by
  induction m with
  | nil => simp [aerase, afind]
  | cons hd tl ih =>
    rw [aerase_cons]
    by_cases h : hd.1 = k
    · simpa [h] using ih
    · simpa [afind, h] using ih

theorem afind_aerase_ne {κ α : Type} [DecidableEq κ] (m : List (κ × α)) (k k' : κ)
    (h : k ≠ k') : afind (aerase m k) k' = afind m k' := by
  induction m with
  | nil => simp [aerase, afind]
  | cons hd tl ih =>
    obtain ⟨k1, v1⟩ := hd
    rw [aerase_cons]
    by_cases h2 : k1 = k
    · have h4 : k1 ≠ k' := by
        rw [h2]; exact h
      simp only [if_pos h2, ih]
      simp [afind, h4]
    · simp only [if_neg h2]
      by_cases h3 : k1 = k'
      · simp [afind, h3]
      · simp [afind, h3, ih]

theorem acontains_aerase_self {κ α : Type} [DecidableEq κ] (m : List (κ × α)) (k : κ) :
    acontains (aerase m k) k = false := by
  simp [acontains, afind_aerase_self]

theorem akeys_ainsert_mem {κ α : Type} [DecidableEq κ] (m : List (κ × α)) (k k' : κ) (v : α) :
    k' ∈ akeys (ainsert m k v) ↔ k' ∈ akeys m ∨ k' = k := by
  induction m with
  | nil => simp [ainsert, akeys]
  | cons hd tl ih =>
    obtain ⟨k1, v1⟩ := hd
    by_cases h : k1 = k
    · subst h
      rw [ainsert_cons, if_pos rfl]
      simp only [akeys, List.map_cons, List.mem_cons]
      tauto
    · rw [ainsert_cons, if_neg h]
      simp only [akeys, List.map_cons, List.mem_cons] at ih ⊢
      rw [ih]
      tauto

theorem akeys_ainsert_nodup {κ α : Type} [DecidableEq κ] (m : List (κ × α)) (k : κ) (v : α)
    (h : (akeys m).Nodup) : (akeys (ainsert m k v)).Nodup := by
  induction m with
  | nil => simp [ainsert, akeys]
  | cons hd tl ih =>
    obtain ⟨k1, v1⟩ := hd
    simp only [akeys, List.map_cons, List.nodup_cons] at h
    by_cases h2 : k1 = k
    · subst h2
      rw [ainsert_cons, if_pos rfl]
      simpa [akeys, List.nodup_cons] using h
    · rw [ainsert_cons, if_neg h2]
      simp only [akeys, List.map_cons, List.nodup_cons]
      refine ⟨?_, ih h.2⟩
      intro hmem
      rcases (akeys_ainsert_mem tl k k1 v).mp hmem with h3 | h3
      · exact h.1 h3
      · exact h2 h3

theorem akeys_aerase_sublist {κ α : Type} [DecidableEq κ] (m : List (κ × α)) (k : κ) :
    (akeys (aerase m k)).Sublist (akeys m) := by
  simpa [akeys, aerase] using List.Sublist.map Prod.fst (List.filter_sublist m)

theorem akeys_aerase_nodup {κ α : Type} [DecidableEq κ] (m : List (κ × α)) (k : κ)
    (h : (akeys m).Nodup) : (akeys (aerase m k)).Nodup :=
  (akeys_aerase_sublist m k).nodup h

theorem akeys_aerase_mem {κ α : Type} [DecidableEq κ] (m : List (κ × α)) (k k' : κ)
    (h : k' ∈ akeys (aerase m k)) : k' ∈ akeys m :=
  (akeys_aerase_sublist m k).mem h

/-! ## Download Record data model -/

/-- DownloadItem::SafetyState. -/
inductive SafetyState
  | SAFE
  | DANGEROUS
  | VALIDATED
  deriving Repr, DecidableEq

/-- DownloadItem::DownloadState (the life state of a Record). -/
inductive DownloadState
  | IN_PROGRESS
  | COMPLETE
  | CANCELLED
  | INTERRUPTED
  | REMOVING
  deriving Repr, DecidableEq

/-- FilePath, modelled as a list of path components; `[]` is the empty path. -/
abbrev MPath := List String

/-- Modelled from the spec: download_util::GetCrDownloadPath (download_util.cc
is not among the reviewed sources) produces the in-progress naming-convention
variant of a path by appending the ".crdownload" suffix to its final
component. -/
def getCrDownloadPath : MPath → MPath
  | [] => []
  | [x] => [x ++ ".crdownload"]
  | x :: xs => x :: getCrDownloadPath xs

/-- Modelled from the spec: DownloadHistory::kUninitializedHandle
(download_history.cc is not among the reviewed sources), the reserved sentinel
durable handle denoting "not yet assigned". -/
def kUninitializedHandle : Int := 0

/-- Modelled from the spec: the state of the History Journal Adapter's fake
handle generator; durable handles are unique, and locally generated fake
handles are drawn from a strictly descending sequence starting below the
sentinel. -/
structure DownloadHistoryState where
  next_fake_db_handle : Int
  deriving Repr, DecidableEq

/-- The journal adapter state right after DownloadManager::Init. -/
def initialDownloadHistory : DownloadHistoryState :=
  { next_fake_db_handle := kUninitializedHandle - 1 }

/-- Modelled from the spec: DownloadHistory::GetNextFakeDbHandle returns the
current fake handle and moves to the next (strictly smaller) one, so that
every generated fake handle is unique and distinct from the sentinel. -/
def GetNextFakeDbHandle (h : DownloadHistoryState) : Int × DownloadHistoryState :=
  (h.next_fake_db_handle, { next_fake_db_handle := h.next_fake_db_handle - 1 })

/-- The mutable state of one download Record (the fields of DownloadItem that
DownloadManager reads or writes; download_item.cc itself is not among the
reviewed sources, so the accessors and mutators below are modelled from the
spec's Record interface). -/
structure DownloadItem where
  id : Int
  db_handle : Int
  state : DownloadState
  safety_state : SafetyState
  all_data_saved : Bool
  received_bytes : Int
  total_bytes : Int
  full_path : MPath
  start_time : Int
  is_otr : Bool
  is_temporary : Bool
  prompt_user_for_save_location : Bool
  last_os_error : Int
  deriving Repr, DecidableEq

namespace DownloadItem

/-- Modelled from the spec: a partial download is one still in progress. -/
def IsPartialDownload (d : DownloadItem) : Bool :=
  d.state = DownloadState.IN_PROGRESS

/-- Modelled from the spec: life-state query. -/
def IsInProgress (d : DownloadItem) : Bool :=
  d.state = DownloadState.IN_PROGRESS

/-- Modelled from the spec: life-state query. -/
def IsComplete (d : DownloadItem) : Bool :=
  d.state = DownloadState.COMPLETE

/-- Modelled from the spec: life-state query. -/
def IsCancelled (d : DownloadItem) : Bool :=
  d.state = DownloadState.CANCELLED

/-- Modelled from the spec: life-state query. -/
def IsInterrupted (d : DownloadItem) : Bool :=
  d.state = DownloadState.INTERRUPTED

/-- Modelled from the spec: a Record is dangerous while its safety state is
DANGEROUS. -/
def IsDangerous (d : DownloadItem) : Bool :=
  d.safety_state = SafetyState.DANGEROUS

/-- Modelled from the spec: commits the initially determined path. -/
def OnPathDetermined (d : DownloadItem) (p : MPath) : DownloadItem :=
  { d with full_path := p }

/-- Modelled from the spec: renames the Record's current on-disk path. -/
def Rename (d : DownloadItem) (p : MPath) : DownloadItem :=
  { d with full_path := p }

/-- Modelled from the spec: records that every byte has been received. -/
def OnAllDataSaved (d : DownloadItem) (size : Int) : DownloadItem :=
  { d with received_bytes := size, all_data_saved := true }

/-- Modelled from the spec: a progress update stores the new byte count. -/
def Update (d : DownloadItem) (size : Int) : DownloadItem :=
  { d with received_bytes := size }

/-- Modelled from the spec: an interruption stores the byte count and error
code and moves the Record to the INTERRUPTED life state. -/
def Interrupted (d : DownloadItem) (size : Int) (os_error : Int) : DownloadItem :=
  { d with received_bytes := size, last_os_error := os_error,
           state := DownloadState.INTERRUPTED }

/-- Modelled from the spec: DownloadItem::Cancel(false) marks the Record
CANCELLED; with update_history false it does not call back into the
manager. -/
def Cancel (d : DownloadItem) : DownloadItem :=
  { d with state := DownloadState.CANCELLED }

/-- Modelled from the spec: a dangerous-URL verdict marks the Record
DANGEROUS. -/
def MarkUrlDangerous (d : DownloadItem) : DownloadItem :=
  { d with safety_state := SafetyState.DANGEROUS }

/-- Modelled from the spec: the journal's durable handle is stored on the
Record once assigned. -/
def set_db_handle (d : DownloadItem) (h : Int) : DownloadItem :=
  { d with db_handle := h }

end DownloadItem

/-! ## Coordinator state -/

/-- Calls made to external collaborators (history journal, file manager,
network request handles, observers, disk); recorded as a trace. -/
inductive MEvent
  | FileDeleted (path : MPath)
  | DownloadItemCancelled (id : Int)
  | RequestCancelled (id : Int)
  | FileManagerCancel (id : Int)
  | RenameInProgress (id : Int) (p : MPath)
  | DownloadCompleting (id : Int)
  | HistoryAddEntry (ptr : Nat)
  | HistoryUpdateEntry (ptr : Nat)
  | HistoryRemoveEntry (ptr : Nat)
  | HistoryRemoveEntriesBetween (b e : Int)
  | HistoryCheckVisitedReferrer (id : Int)
  | ModelChanged
  | ManagerGoingDown
  deriving Repr, DecidableEq

/-- The state owned by one DownloadManager.  `items` is the heap of Records
(keyed by a pointer surrogate), `downloads` is the owning master set
`downloads_`, `active_downloads`, `in_progress` and `history_downloads` are
the maps `active_downloads_` (download id to pointer; a `none` value is a
null pointer entry created by `std::map::operator[]`), `in_progress_`
(download id to pointer) and `history_downloads_` (durable db handle to
pointer), and `save_page_as_downloads` is the debug-only set
`save_page_as_downloads_`. -/
structure MState where
  shutdown_needed : Bool
  next_ptr : Nat
  items : List (Nat × DownloadItem)
  downloads : List Nat
  active_downloads : List (Int × Option Nat)
  in_progress : List (Int × Nat)
  history_downloads : List (Int × Nat)
  save_page_as_downloads : List Nat
  download_history : DownloadHistoryState
  last_download_path : MPath
  events : List MEvent
  deriving Repr, DecidableEq

/-- The manager state right after a successful DownloadManager::Init. -/
def initialState : MState :=
  { shutdown_needed := true
    next_ptr := 0
    items := []
    downloads := []
    active_downloads := []
    in_progress := []
    history_downloads := []
    save_page_as_downloads := []
    download_history := initialDownloadHistory
    last_download_path := []
    events := [] }

namespace DownloadManager

/-- DownloadManager::GetActiveDownloadItem (download_manager.cc:1248-1253),
release semantics: the DCHECKs are no-ops and `active_downloads_[download_id]`
uses `std::map::operator[]`, which default-constructs a null entry for an
absent key before returning it. -/
def GetActiveDownloadItem (s : MState) (download_id : Int) : MState × Option Nat :=
  match afind s.active_downloads download_id with
  | some v => (s, v)
  | none =>
      ({ s with active_downloads := ainsert s.active_downloads download_id none }, none)

/-- The create-info carried by the network layer's new-download message
(fields of DownloadCreateInfo that the modelled constructor reads). -/
structure DownloadCreateInfo where
  download_id : Int
  start_time : Int
  total_bytes : Int
  prompt_user_for_save_location : Bool
  is_temporary : Bool
  deriving Repr, DecidableEq

/-- Modelled from the spec: the DownloadItem constructor for a newly created
active download (download_item.cc is not among the reviewed sources): a fresh
Record starts IN_PROGRESS and SAFE, with no bytes received, an empty target
path and the uninitialized durable handle. -/
def newDownloadItem (info : DownloadCreateInfo) (is_otr : Bool) : DownloadItem :=
  { id := info.download_id
    db_handle := kUninitializedHandle
    state := DownloadState.IN_PROGRESS
    safety_state := SafetyState.SAFE
    all_data_saved := false
    received_bytes := 0
    total_bytes := info.total_bytes
    full_path := []
    start_time := info.start_time
    is_otr := is_otr
    is_temporary := info.is_temporary
    prompt_user_for_save_location := info.prompt_user_for_save_location
    last_os_error := 0 }

/-- DownloadManager::CreateDownloadItem (download_manager.cc:534-544): always
allocates a Record and inserts it into `downloads_` and `active_downloads_`
(release semantics; the containment DCHECKs are no-ops, and there is no
shutdown check). -/
def CreateDownloadItem (s : MState) (info : DownloadCreateInfo)
    (profile_is_otr : Bool) : MState :=
  let download := newDownloadItem info profile_is_otr
  let p := s.next_ptr
  { s with next_ptr := p + 1
           items := ainsert s.items p download
           downloads := sinsert s.downloads p
           active_downloads := ainsert s.active_downloads info.download_id (some p) }

/-- DownloadManager::ContinueDownloadWithPath (download_manager.cc:546-596),
release semantics (every DCHECK, including the `full_path().empty()` check, is
a no-op).  Returns `none` when the Record pointer is dangling. -/
def ContinueDownloadWithPath (s : MState) (ptr : Nat) (chosen_file : MPath) :
    Option MState :=
  match afind s.items ptr with
  | none => none
  | some download =>
      let download_id := download.id
      let d1 := download.OnPathDetermined chosen_file
      let s1 := { s with items := ainsert s.items ptr d1
                         in_progress := ainsert s.in_progress download_id ptr }
      let download_path :=
        if d1.IsDangerous then d1.full_path else getCrDownloadPath d1.full_path
      let d2 := d1.Rename download_path
      some { s1 with
              items := ainsert s1.items ptr d2
              events := s1.events ++
                [MEvent.RenameInProgress download_id download_path,
                 MEvent.HistoryAddEntry ptr] }

/-- DownloadManager::UpdateDownload (download_manager.cc:598-609).  Returns
`none` on a null or dangling pointer dereference. -/
def UpdateDownload (s : MState) (download_id : Int) (size : Int) : Option MState :=
  match afind s.active_downloads download_id with
  | none => some s
  | some none => none
  | some (some ptr) =>
      match afind s.items ptr with
      | none => none
      | some download =>
          if download.IsInProgress then
            some { s with items := ainsert s.items ptr (download.Update size)
                          events := s.events ++ [MEvent.HistoryUpdateEntry ptr] }
          else some s

/-- DownloadManager::IsDownloadReadyForCompletion (download_manager.cc:712-735):
the four eligibility checks, in source order. -/
def IsDownloadReadyForCompletion (s : MState) (download : DownloadItem) : Bool :=
  if download.all_data_saved = false then false
  else if download.safety_state = SafetyState.DANGEROUS then false
  else if acontains s.active_downloads download.id = false then false
  else if download.db_handle = kUninitializedHandle then false
  else true

/-- DownloadManager::MaybeCompleteDownload (download_manager.cc:737-768),
release semantics (the DCHECKs are no-ops).  The boolean result records
whether the guard was passed and the completion effects (removal from
`in_progress_`, journal update, DownloadItem::OnDownloadCompleting) were
performed.  Returns `none` when the Record pointer is dangling. -/
def MaybeCompleteDownload (s : MState) (ptr : Nat) : Option (MState × Bool) :=
  match afind s.items ptr with
  | none => none
  | some download =>
      if IsDownloadReadyForCompletion s download = false then some (s, false)
      else
        some ({ s with
                 in_progress := aerase s.in_progress download.id
                 events := s.events ++
                   [MEvent.HistoryUpdateEntry ptr,
                    MEvent.DownloadCompleting download.id] }, true)

/-- DownloadManager::OnAllDataSaved (download_manager.cc:628-661); the
safe-browsing hash check only spawns an external client, so it leaves the
coordinator state unchanged and is not recorded.  Returns `none` on a null or
dangling pointer dereference. -/
def OnAllDataSaved (s : MState) (download_id : Int) (size : Int) : Option MState :=
  if acontains s.active_downloads download_id = false then some s
  else
    match afind s.active_downloads download_id with
    | none => some s
    | some none => none
    | some (some ptr) =>
        match afind s.items ptr with
        | none => none
        | some download =>
            let s1 := { s with
                         items := ainsert s.items ptr (download.OnAllDataSaved size) }
            match MaybeCompleteDownload s1 ptr with
            | none => none
            | some (s2, _) => some s2

/-- DownloadManager::DownloadCancelledInternal (download_manager.cc:828-837):
cancels the network request and tells the file manager to cancel; both are
external calls. -/
def DownloadCancelledInternal (s : MState) (download_id : Int) : MState :=
  { s with events := s.events ++
      [MEvent.RequestCancelled download_id, MEvent.FileManagerCancel download_id] }

/-- DownloadManager::DownloadCancelled (download_manager.cc:806-826): the
Record is removed from `in_progress_` and `active_downloads_` only when its
durable handle has already been assigned; otherwise clean-up is deferred to
the history-create callback.  Returns `none` on a dangling pointer. -/
def DownloadCancelled (s : MState) (download_id : Int) : Option MState :=
  match afind s.in_progress download_id with
  | none => some s
  | some ptr =>
      match afind s.items ptr with
      | none => none
      | some download =>
          let s1 :=
            if download.db_handle ≠ kUninitializedHandle then
              { s with in_progress := aerase s.in_progress download_id
                       active_downloads := aerase s.active_downloads download_id
                       events := s.events ++ [MEvent.HistoryUpdateEntry ptr] }
            else s
          some (DownloadCancelledInternal s1 download_id)

/-- DownloadManager::OnDownloadError (download_manager.cc:839-873).  Returns
`none` on a null or dangling pointer dereference. -/
def OnDownloadError (s : MState) (download_id : Int) (size : Int) (os_error : Int) :
    Option MState :=
  match afind s.active_downloads download_id with
  | none => some s
  | some none => none
  | some (some ptr) =>
      match afind s.items ptr with
      | none => none
      | some download =>
          let d1 := download.Interrupted size os_error
          let s1 := { s with items := ainsert s.items ptr d1 }
          let s2 :=
            if d1.db_handle ≠ kUninitializedHandle then
              { s1 with in_progress := aerase s1.in_progress download_id
                        active_downloads := aerase s1.active_downloads download_id
                        events := s1.events ++ [MEvent.HistoryUpdateEntry ptr] }
            else s1
          some { s2 with events := s2.events ++ [MEvent.FileManagerCancel download_id] }

/-- DownloadManager::RemoveDownload (download_manager.cc:880-898): erases the
Record from the durable index and the master collection, releases it, and
notifies observers; `active_downloads_` and `in_progress_` are not touched. -/
def RemoveDownload (s : MState) (download_handle : Int) : MState :=
  match afind s.history_downloads download_handle with
  | none => s
  | some ptr =>
      { s with history_downloads := aerase s.history_downloads download_handle
               downloads := serase s.downloads ptr
               items := aerase s.items ptr
               events := s.events ++ [MEvent.HistoryRemoveEntry ptr, MEvent.ModelChanged] }

/-- DownloadManager::AssertQueueStateConsistent (download_manager.cc:681-710)
as a boolean predicate (its CHECKs are fatal in every build). -/
def AssertQueueStateConsistent (s : MState) (ptr : Nat) (download : DownloadItem) : Bool :=
  if download.state = DownloadState.REMOVING then
    !(decide (ptr ∈ s.downloads)) &&
    !(acontains s.active_downloads download.id) &&
    !(acontains s.in_progress download.id) &&
    !(acontains s.history_downloads download.db_handle)
  else
    decide (ptr ∈ s.downloads) &&
    (if download.db_handle ≠ kUninitializedHandle then
       acontains s.history_downloads download.db_handle
     else
       s.history_downloads.all (fun q => decide (q.2 ≠ ptr))) &&
    (acontains s.active_downloads download.id ==
       decide (download.state = DownloadState.IN_PROGRESS)) &&
    (acontains s.in_progress download.id ==
       decide (download.state = DownloadState.IN_PROGRESS))

/-- Whether a Record is selected by RemoveDownloadsBetween: its start time is
in `[remove_begin, remove_end)` (a null `remove_end`, modelled as 0, means
unbounded) and its life state is terminal. -/
def inRemovalRange (d : DownloadItem) (remove_begin remove_end : Int) : Bool :=
  decide (remove_begin ≤ d.start_time) &&
  (decide (remove_end = 0) || decide (d.start_time < remove_end)) &&
  (d.IsComplete || d.IsCancelled || d.IsInterrupted)

/-- The iteration of DownloadManager::RemoveDownloadsBetween over the durable
index (download_manager.cc:906-927): entries in range with a terminal state
are checked for queue consistency (a failing CHECK is a crash, `none`),
erased from `history_downloads_`, and collected for deletion.  Returns `none`
also on a dangling pointer. -/
def RemoveDownloadsBetweenLoop (s : MState) (entries : List (Int × Nat))
    (remove_begin remove_end : Int) (pending : List Nat) :
    Option (MState × List Nat) :=
  match entries with
  | [] => some (s, pending)
  | (h, ptr) :: rest =>
      match afind s.items ptr with
      | none => none
      | some download =>
          if inRemovalRange download remove_begin remove_end then
            if AssertQueueStateConsistent s ptr download = false then none
            else
              RemoveDownloadsBetweenLoop
                { s with history_downloads := aerase s.history_downloads h }
                rest remove_begin remove_end (pending ++ [ptr])
          else
            RemoveDownloadsBetweenLoop s rest remove_begin remove_end pending

/-- DownloadManager::RemoveDownloadsBetween (download_manager.cc:900-949):
asks the journal to purge the range, scans the durable index, erases the
selected Records from the master collection, notifies observers exactly once
when anything was removed, releases the Records and returns their count. -/
def RemoveDownloadsBetween (s : MState) (remove_begin remove_end : Int) :
    Option (MState × Nat) :=
  let s0 := { s with events := s.events ++
                [MEvent.HistoryRemoveEntriesBetween remove_begin remove_end] }
  match RemoveDownloadsBetweenLoop s0 s0.history_downloads remove_begin remove_end [] with
  | none => none
  | some (s1, pending) =>
      if pending.isEmpty then some (s1, 0)
      else
        some ({ s1 with downloads := pending.foldl serase s1.downloads
                        items := pending.foldl aerase s1.items
                        events := s1.events ++ [MEvent.ModelChanged] },
              pending.length)

/-- DownloadManager::CheckDownloadUrlDone (download_manager.cc:318-332): the
resumed safebrowsing-verdict callback; re-validates through
GetActiveDownloadItem, marks the Record's URL dangerous on a positive verdict
and forwards to the referrer-history check. -/
def CheckDownloadUrlDone (s : MState) (download_id : Int) (is_dangerous_url : Bool) :
    Option MState :=
  let r := GetActiveDownloadItem s download_id
  match r.2 with
  | none => some r.1
  | some ptr =>
      match afind r.1.items ptr with
      | none => none
      | some download =>
          let d1 := if is_dangerous_url then download.MarkUrlDangerous else download
          some { r.1 with
                  items := ainsert r.1.items ptr d1
                  events := r.1.events ++ [MEvent.HistoryCheckVisitedReferrer download_id] }

/-- DownloadManager::FileSelected (download_manager.cc:1062-1081): the resumed
save-path-dialog callback; re-validates through GetActiveDownloadItem,
remembers the chosen directory when the Record prompted, and commits the
chosen path. -/
def FileSelected (s : MState) (path : MPath) (download_id : Int) : Option MState :=
  let r := GetActiveDownloadItem s download_id
  match r.2 with
  | none => some r.1
  | some ptr =>
      match afind r.1.items ptr with
      | none => none
      | some download =>
          let s2 :=
            if download.prompt_user_for_save_location then
              { r.1 with last_download_path := path.dropLast }
            else r.1
          ContinueDownloadWithPath s2 ptr path

/-- DownloadManager::FileSelectionCanceled (download_manager.cc:1083-1100):
the resumed dialog-cancelled callback; re-validates and cancels the
in-progress request. -/
def FileSelectionCanceled (s : MState) (download_id : Int) : Option MState :=
  let r := GetActiveDownloadItem s download_id
  match r.2 with
  | none => some r.1
  | some ptr =>
      match afind r.1.items ptr with
      | none => none
      | some _ => some (DownloadCancelledInternal r.1 download_id)

/-- DownloadManager::AddDownloadItemToHistory (download_manager.cc:1147-1168):
when the journal returned the uninitialized sentinel handle, a locally
generated unique fake handle is substituted; the handle is stored on the
Record, which is then inserted into the durable index.  The CHECK_NE against
the sentinel can never fire because the substituted fake handle is below the
sentinel.  Returns `none` on a dangling pointer. -/
def AddDownloadItemToHistory (s : MState) (ptr : Nat) (db_handle : Int) :
    Option MState :=
  match afind s.items ptr with
  | none => none
  | some download =>
      let hs := if db_handle = kUninitializedHandle
                then GetNextFakeDbHandle s.download_history
                else (db_handle, s.download_history)
      let d1 := download.set_db_handle hs.1
      some { s with items := ainsert s.items ptr d1
                    history_downloads := ainsert s.history_downloads hs.1 ptr
                    download_history := hs.2 }

/-- DownloadManager::OnCreateDownloadEntryComplete
(download_manager.cc:1173-1210): the journal's add-entry callback;
re-validates through GetActiveDownloadItem, stores the durable handle,
notifies observers, then either attempts completion (still in progress) or
performs the deferred cancel clean-up. -/
def OnCreateDownloadEntryComplete (s : MState) (download_id : Int) (db_handle : Int) :
    Option MState :=
  let r := GetActiveDownloadItem s download_id
  match r.2 with
  | none => some r.1
  | some ptr =>
      match AddDownloadItemToHistory r.1 ptr db_handle with
      | none => none
      | some s2 =>
          let s3 := { s2 with events := s2.events ++ [MEvent.ModelChanged] }
          match afind s3.items ptr with
          | none => none
          | some download =>
              if download.IsInProgress then
                match MaybeCompleteDownload s3 ptr with
                | none => none
                | some (s4, _) => some s4
              else
                some { s3 with
                        in_progress := aerase s3.in_progress download_id
                        active_downloads := aerase s3.active_downloads download_id
                        events := s3.events ++ [MEvent.HistoryUpdateEntry ptr] }

/-- One persisted journal entry handed to
DownloadManager::OnQueryDownloadEntriesComplete (the spec's persisted state
layout). -/
structure DownloadHistoryInfo where
  db_handle : Int
  start_time : Int
  received_bytes : Int
  total_bytes : Int
  path : MPath
  state : DownloadState
  deriving Repr, DecidableEq

/-- Modelled from the spec: the DownloadItem constructor used when the journal
replays historical entries (download_item.cc is not among the reviewed
sources); the Record carries the persisted durable handle, path, byte counts,
life state and start time. -/
def itemFromHistoryInfo (info : DownloadHistoryInfo) : DownloadItem :=
  { id := -1
    db_handle := info.db_handle
    state := info.state
    safety_state := SafetyState.SAFE
    all_data_saved := decide (info.state = DownloadState.COMPLETE)
    received_bytes := info.received_bytes
    total_bytes := info.total_bytes
    full_path := info.path
    start_time := info.start_time
    is_otr := false
    is_temporary := false
    prompt_user_for_save_location := false
    last_os_error := 0 }

/-- DownloadManager::OnQueryDownloadEntriesComplete
(download_manager.cc:1133-1145): replays every persisted entry into the master
collection and the durable index and notifies observers once. -/
def OnQueryDownloadEntriesComplete (s : MState) (entries : List DownloadHistoryInfo) :
    MState :=
  let step := fun (st : MState) (info : DownloadHistoryInfo) =>
    let p := st.next_ptr
    let d := itemFromHistoryInfo info
    { st with next_ptr := p + 1
              items := ainsert st.items p d
              downloads := sinsert st.downloads p
              history_downloads := ainsert st.history_downloads info.db_handle p }
  let s1 := entries.foldl step s
  { s1 with events := s1.events ++ [MEvent.ModelChanged] }

/-- DownloadManager::SavePageAsDownloadStarted (download_manager.cc:965-973):
registers an externally created save-page Record in the debug-only index and
the master collection, adds it to history with the sentinel handle (forcing a
fake handle) and notifies observers. -/
def SavePageAsDownloadStarted (s : MState) (download : DownloadItem) : Option MState :=
  let p := s.next_ptr
  let s0 := { s with next_ptr := p + 1
                     items := ainsert s.items p download
                     save_page_as_downloads := sinsert s.save_page_as_downloads p
                     downloads := sinsert s.downloads p }
  match AddDownloadItemToHistory s0 p kUninitializedHandle with
  | none => none
  | some s1 => some { s1 with events := s1.events ++ [MEvent.ModelChanged] }

/-- Modelled from the spec: DownloadItem::Delete (download_item.cc is not
among the reviewed sources) deletes the Record's on-disk data. -/
def DeleteDownload (s : MState) (ptr : Nat) : MState :=
  match afind s.items ptr with
  | none => s
  | some d => { s with events := s.events ++ [MEvent.FileDeleted d.full_path] }

/-- Modelled from the spec: DownloadItem::Cancel(false) (download_item.cc is
not among the reviewed sources) marks the Record CANCELLED without calling
back into the manager. -/
def CancelDownloadItem (s : MState) (ptr : Nat) : MState :=
  match afind s.items ptr with
  | none => s
  | some d =>
      { s with items := ainsert s.items ptr d.Cancel
               events := s.events ++ [MEvent.DownloadItemCancelled d.id] }

/-- The per-download loop of DownloadManager::Shutdown
(download_manager.cc:88-111) over a snapshot of `downloads_`: dangerous
partial Records have their on-disk data deleted; any other partial Record is
cancelled and its journal entry updated. -/
def ShutdownLoop (s : MState) : List Nat → MState
  | [] => s
  | p :: rest =>
      let s1 :=
        match afind s.items p with
        | none => s
        | some d =>
            if d.safety_state = SafetyState.DANGEROUS ∧ d.IsPartialDownload = true then
              DeleteDownload s p
            else if d.IsPartialDownload = true then
              let s2 := CancelDownloadItem s p
              { s2 with events := s2.events ++ [MEvent.HistoryUpdateEntry p] }
            else s
      ShutdownLoop s1 rest

/-- DownloadManager::Shutdown (download_manager.cc:68-136): a no-op unless
`shutdown_needed_`; otherwise notifies observers of the teardown, processes
every download (deleting dangerous partial data, cancelling other partial
downloads), clears every index, releases every owned Record and resets the
journal adapter. -/
def Shutdown (s : MState) : MState :=
  if s.shutdown_needed = false then s
  else
    let s0 := { s with shutdown_needed := false
                       events := s.events ++ [MEvent.ManagerGoingDown] }
    let s1 := ShutdownLoop s0 s0.downloads
    { s1 with downloads := []
              in_progress := []
              active_downloads := []
              history_downloads := []
              save_page_as_downloads := []
              items := s1.items.filter (fun q => decide (q.1 ∉ s1.downloads))
              download_history := initialDownloadHistory }

/-- The per-Record state carried through path resolution (the fields of
DownloadStateInfo read or written by CheckVisitedReferrerBeforeDone). -/
structure DownloadStateInfo where
  prompt_user_for_save_location : Bool
  is_extension_install : Bool
  is_dangerous_file : Bool
  is_dangerous_url : Bool
  has_user_gesture : Bool
  force_file_name : MPath
  suggested_path : MPath
  deriving Repr, DecidableEq

/-- The path-resolution decision of
DownloadManager::CheckVisitedReferrerBeforeDone (download_manager.cc:334-407),
as the pure computation of the new DownloadStateInfo.  Results of calls to
external collaborators are passed as parameters: `is_url_user_script` and
`mime_is_extension` stand for UserScript::IsURLUserScript and the
Extension::kMimeType comparison, `generated_name` for
download_util::GenerateFileNameFromRequest, `prompt_for_download` and
`download_path_managed` and `default_download_path` for the DownloadPrefs
queries, `auto_open` for ShouldOpenFileBasedOnExtension on the generated
name, and `is_dangerous_file_result` for IsDangerousFile. -/
def CheckVisitedReferrerBeforeDoneState
    (state : DownloadStateInfo)
    (is_url_user_script mime_is_extension : Bool)
    (generated_name : String)
    (prompt_for_download download_path_managed : Bool)
    (default_download_path last_download_path : MPath)
    (auto_open : Bool)
    (is_dangerous_file_result : Bool) : DownloadStateInfo :=
  let st1 :=
    if !state.prompt_user_for_save_location && (is_url_user_script || mime_is_extension)
    then { state with is_extension_install := true }
    else state
  let st2 :=
    if st1.force_file_name.isEmpty then
      let st2a :=
        if prompt_for_download && !st1.is_extension_install && !auto_open
        then { st1 with prompt_user_for_save_location := true }
        else st1
      let st2b :=
        if download_path_managed
        then { st2a with prompt_user_for_save_location := false }
        else st2a
      let dir :=
        if st2b.prompt_user_for_save_location && !last_download_path.isEmpty
        then last_download_path
        else default_download_path
      { st2b with suggested_path := dir ++ [generated_name] }
    else
      { st1 with suggested_path := st1.force_file_name }
  if !st2.prompt_user_for_save_location && st2.force_file_name.isEmpty
  then { st2 with is_dangerous_file := is_dangerous_file_result }
  else st2

end DownloadManager

/-! ## Claim C1: completion eligibility -/

theorem isDownloadReadyForCompletion_eq_true_iff (s : MState) (d : DownloadItem) :
    DownloadManager.IsDownloadReadyForCompletion s d = true ↔
      (d.all_data_saved = true ∧ d.safety_state ≠ SafetyState.DANGEROUS ∧
       acontains s.active_downloads d.id = true ∧
       d.db_handle ≠ kUninitializedHandle) := by
  unfold DownloadManager.IsDownloadReadyForCompletion
  by_cases h1 : d.all_data_saved = false
  · simp [h1]
  · by_cases h2 : d.safety_state = SafetyState.DANGEROUS
    · simp [h1, h2]
    · by_cases h3 : acontains s.active_downloads d.id = false
      · simp [h1, h2, h3]
      · by_cases h4 : d.db_handle = kUninitializedHandle
        · simp [h1, h2, h3, h4]
        · simp [h1, h2, h3, h4]

/-- C1: the Coordinator completes a Record through MaybeCompleteDownload only
if, at that moment, all of the Record's bytes have been received, its safety
state is not DANGEROUS, it is present in the active index, and its durable
handle is not the uninitialized sentinel; when any of these fails the call
leaves the whole Coordinator state unchanged. -/
theorem maybeCompleteDownload_only_if_eligible (s : MState) (ptr : Nat)
    (s' : MState) (completed : Bool)
    (h : DownloadManager.MaybeCompleteDownload s ptr = some (s', completed)) :
    (completed = false → s' = s) ∧
    (completed = true → ∃ d, afind s.items ptr = some d ∧
      d.all_data_saved = true ∧
      d.safety_state ≠ SafetyState.DANGEROUS ∧
      acontains s.active_downloads d.id = true ∧
      d.db_handle ≠ kUninitializedHandle) := by
  unfold DownloadManager.MaybeCompleteDownload at h
  cases hd : afind s.items ptr with
  | none => rw [hd] at h; exact absurd h (by simp)
  | some d =>
    rw [hd] at h
    have h2 : (if DownloadManager.IsDownloadReadyForCompletion s d = false
           then some (s, false)
           else
             some ({ s with
                      in_progress := aerase s.in_progress d.id
                      events := s.events ++
                        [MEvent.HistoryUpdateEntry ptr,
                         MEvent.DownloadCompleting d.id] }, true))
        = some (s', completed) := h
    by_cases hr : DownloadManager.IsDownloadReadyForCompletion s d = false
    · rw [if_pos hr] at h2
      simp only [Option.some.injEq, Prod.mk.injEq] at h2
      exact ⟨fun _ => h2.1.symm, fun hc => absurd (h2.2.trans hc) (by simp)⟩
    · rw [if_neg hr] at h2
      simp only [Option.some.injEq, Prod.mk.injEq] at h2
      refine ⟨fun hc => absurd (h2.2.trans hc) (by simp), fun _ => ⟨d, rfl, ?_⟩⟩
      exact (isDownloadReadyForCompletion_eq_true_iff s d).mp
        (by simpa using hr)

/-- A Record eligible for completion, used to instantiate C1's theorem. -/
def c1item : DownloadItem :=
  { id := 1, db_handle := 5, state := DownloadState.IN_PROGRESS,
    safety_state := SafetyState.SAFE, all_data_saved := true,
    received_bytes := 100, total_bytes := 100, full_path := ["report.pdf"],
    start_time := 10, is_otr := false, is_temporary := false,
    prompt_user_for_save_location := false, last_os_error := 0 }

/-- A Coordinator state holding `c1item` in every relevant index. -/
def c1state : MState :=
  { initialState with
      next_ptr := 1
      items := [(0, c1item)]
      downloads := [0]
      active_downloads := [(1, some 0)]
      in_progress := [(1, 0)]
      history_downloads := [(5, 0)] }

/-- The result of completing `c1item`. -/
def c1result : MState × Bool :=
  (DownloadManager.MaybeCompleteDownload c1state 0).getD (c1state, false)

theorem maybeCompleteDownload_only_if_eligible_witness :
    c1item.all_data_saved = true ∧
    c1item.safety_state ≠ SafetyState.DANGEROUS ∧
    acontains c1state.active_downloads c1item.id = true ∧
    c1item.db_handle ≠ kUninitializedHandle := by
  have h := maybeCompleteDownload_only_if_eligible c1state 0 c1result.1 c1result.2
    (by decide)
  obtain ⟨d, hd, h1, h2, h3, h4⟩ := h.2 (by decide)
  have hdc : d = c1item := by
    have : afind c1state.items 0 = some c1item := by decide
    rw [this] at hd
    exact (Option.some.injEq _ _).mp hd.symm
  subst hdc
  exact ⟨h1, h2, h3, h4⟩

/-! ## Claim C4: download creation after shutdown -/

/-- A create-info used to exhibit CreateDownloadItem's behavior after
shutdown. -/
def c4info : DownloadManager.DownloadCreateInfo :=
  { download_id := 1, start_time := 0, total_bytes := 100,
    prompt_user_for_save_location := false, is_temporary := false }

/-- C4 counterexample: in the state reached by shutting the manager down
(where the lifecycle flag `shutdown_needed_` is false), CreateDownloadItem
still mutates both the master collection and the active index, so it is not
a no-op. -/
theorem createDownloadItem_after_shutdown_counterexample :
    (DownloadManager.Shutdown initialState).shutdown_needed = false ∧
    (DownloadManager.CreateDownloadItem (DownloadManager.Shutdown initialState)
        c4info false).active_downloads ≠
      (DownloadManager.Shutdown initialState).active_downloads ∧
    (DownloadManager.CreateDownloadItem (DownloadManager.Shutdown initialState)
        c4info false).downloads ≠
      (DownloadManager.Shutdown initialState).downloads := by
  decide

/-- C4 amended: CreateDownloadItem performs no shutdown check at all — in
every state, including any state in which the shutdown lifecycle flag
indicates shutdown, it allocates a fresh Record and inserts it into the
master collection and the active index. -/
theorem createDownloadItem_unconditional (s : MState)
    (info : DownloadManager.DownloadCreateInfo) (profile_is_otr : Bool) :
    (DownloadManager.CreateDownloadItem s info profile_is_otr).downloads =
      sinsert s.downloads s.next_ptr ∧
    (DownloadManager.CreateDownloadItem s info profile_is_otr).active_downloads =
      ainsert s.active_downloads info.download_id (some s.next_ptr) ∧
    afind (DownloadManager.CreateDownloadItem s info profile_is_otr).items s.next_ptr =
      some (DownloadManager.newDownloadItem info profile_is_otr) ∧
    (DownloadManager.CreateDownloadItem s info profile_is_otr).shutdown_needed =
      s.shutdown_needed := by
  refine ⟨rfl, rfl, ?_, rfl⟩
  exact afind_ainsert_self s.items s.next_ptr
    (DownloadManager.newDownloadItem info profile_is_otr)

/-! ## Claim C7: stale-callback guard -/

/-- C7: evaluating the resumed callbacks at an id absent from the active
index.  The data-saved callback is a genuine no-op, but the safety-verdict
and file-selection callbacks go through GetActiveDownloadItem, whose
`active_downloads_[download_id]` inserts a null entry into the active index
(observable divergence from the stale-callback guard the spec requires; the
function's own DCHECKs fail on this path in debug builds). -/
theorem staleCallback_pollutes_active_index :
    initialState.active_downloads = [] ∧
    DownloadManager.OnAllDataSaved initialState 1 100 = some initialState ∧
    (DownloadManager.CheckDownloadUrlDone initialState 1 false).map
        (fun t => t.active_downloads) = some [(1, none)] ∧
    (DownloadManager.FileSelected initialState ["save", "report.pdf"] 1).map
        (fun t => t.active_downloads) = some [(1, none)] ∧
    (DownloadManager.FileSelectionCanceled initialState 1).map
        (fun t => t.active_downloads) = some [(1, none)] ∧
    (DownloadManager.OnCreateDownloadEntryComplete initialState 1 7).map
        (fun t => t.active_downloads) = some [(1, none)] := by
  decide

/-! ## Claim C5: cancellation and interruption versus the active index -/

/-- An in-progress Record whose durable handle is still the sentinel. -/
def c5item : DownloadItem :=
  { id := 1, db_handle := kUninitializedHandle, state := DownloadState.IN_PROGRESS,
    safety_state := SafetyState.SAFE, all_data_saved := false,
    received_bytes := 50, total_bytes := 100, full_path := ["a.bin"],
    start_time := 10, is_otr := false, is_temporary := false,
    prompt_user_for_save_location := false, last_os_error := 0 }

/-- A state in which `c5item` is active and in progress. -/
def c5state : MState :=
  { initialState with
      next_ptr := 1
      items := [(0, c5item)]
      downloads := [0]
      active_downloads := [(1, some 0)]
      in_progress := [(1, 0)] }

/-- C5 counterexample: for a Record whose durable handle is still the
uninitialized sentinel, neither DownloadCancelled nor OnDownloadError removes
the Record from the active index (or from `in_progress_`) — the claimed
"regardless of whether its durable handle has been assigned" fails. -/
theorem cancel_error_keep_active_counterexample :
    c5item.state = DownloadState.IN_PROGRESS ∧
    c5item.db_handle = kUninitializedHandle ∧
    acontains c5state.active_downloads 1 = true ∧
    (DownloadManager.DownloadCancelled c5state 1).map
        (fun t => (acontains t.active_downloads 1, acontains t.in_progress 1)) =
      some (true, true) ∧
    (DownloadManager.OnDownloadError c5state 1 50 (-105)).map
        (fun t => (acontains t.active_downloads 1, acontains t.in_progress 1)) =
      some (true, true) := by
  decide

/-- C5 amended: DownloadCancelled and OnDownloadError remove the Record from
the active and in-progress indexes exactly when its durable handle has
already been assigned; with the uninitialized sentinel handle both indexes
are left unchanged and clean-up is deferred to the history-create
callback. -/
theorem cancel_error_remove_active_iff_handle_assigned (s : MState)
    (download_id : Int) :
    (∀ ptr d s', afind s.in_progress download_id = some ptr →
      afind s.items ptr = some d →
      DownloadManager.DownloadCancelled s download_id = some s' →
      (d.db_handle ≠ kUninitializedHandle →
        acontains s'.active_downloads download_id = false ∧
        acontains s'.in_progress download_id = false) ∧
      (d.db_handle = kUninitializedHandle →
        s'.active_downloads = s.active_downloads ∧
        s'.in_progress = s.in_progress)) ∧
    (∀ ptr d s' size os_error, afind s.active_downloads download_id = some (some ptr) →
      afind s.items ptr = some d →
      DownloadManager.OnDownloadError s download_id size os_error = some s' →
      (d.db_handle ≠ kUninitializedHandle →
        acontains s'.active_downloads download_id = false ∧
        acontains s'.in_progress download_id = false) ∧
      (d.db_handle = kUninitializedHandle →
        s'.active_downloads = s.active_downloads ∧
        s'.in_progress = s.in_progress)) := by
  constructor
  · intro ptr d s' hip hitem h
    unfold DownloadManager.DownloadCancelled at h
    rw [hip] at h
    simp only [hitem] at h
    split at h
    · rename_i hdb
      have hs' := (Option.some.injEq _ _).mp h
      refine ⟨fun _ => ⟨?_, ?_⟩, fun hc => absurd hc hdb⟩
      · rw [← hs']
        exact acontains_aerase_self s.active_downloads download_id
      · rw [← hs']
        exact acontains_aerase_self s.in_progress download_id
    · rename_i hdb
      have hs' := (Option.some.injEq _ _).mp h
      refine ⟨fun hc => absurd hc hdb, fun _ => ?_⟩
      rw [← hs']
      exact ⟨rfl, rfl⟩
  · intro ptr d s' size os_error hact hitem h
    unfold DownloadManager.OnDownloadError at h
    rw [hact] at h
    simp only [hitem, DownloadItem.Interrupted] at h
    split at h
    · rename_i hdb
      have hs' := (Option.some.injEq _ _).mp h
      refine ⟨fun _ => ⟨?_, ?_⟩, fun hc => absurd hc hdb⟩
      · rw [← hs']
        exact acontains_aerase_self s.active_downloads download_id
      · rw [← hs']
        exact acontains_aerase_self s.in_progress download_id
    · rename_i hdb
      have hs' := (Option.some.injEq _ _).mp h
      refine ⟨fun hc => absurd hc hdb, fun _ => ?_⟩
      rw [← hs']
      exact ⟨rfl, rfl⟩

/-- A Record like `c5item` but with an assigned durable handle. -/
def c5itemAssigned : DownloadItem :=
  { c5item with db_handle := 7 }

/-- A state in which `c5itemAssigned` is active, in progress and durable. -/
def c5stateAssigned : MState :=
  { c5state with
      items := [(0, c5itemAssigned)]
      history_downloads := [(7, 0)] }

theorem cancel_error_remove_active_iff_handle_assigned_witness :
    acontains ((DownloadManager.DownloadCancelled c5stateAssigned 1).getD
        c5stateAssigned).active_downloads 1 = false ∧
    acontains ((DownloadManager.DownloadCancelled c5stateAssigned 1).getD
        c5stateAssigned).in_progress 1 = false := by
  have h := (cancel_error_remove_active_iff_handle_assigned c5stateAssigned 1).1
    0 c5itemAssigned
    ((DownloadManager.DownloadCancelled c5stateAssigned 1).getD c5stateAssigned)
    (by decide) (by decide) (by decide)
  exact h.1 (by decide)

/-! ## Claim C6: RemoveDownload versus the indexes -/

/-- Whether any Coordinator index still references the Record at pointer `p`
(master collection, active index, in-progress index, durable index, or the
debug-only save-page index). -/
def referencesPtr (s : MState) (p : Nat) : Bool :=
  decide (p ∈ s.downloads) ||
  s.active_downloads.any (fun q => decide (q.2 = some p)) ||
  s.in_progress.any (fun q => decide (q.2 = p)) ||
  s.history_downloads.any (fun q => decide (q.2 = p)) ||
  decide (p ∈ s.save_page_as_downloads)

/-- An in-progress Record with an assigned durable handle, present in the
active, in-progress and durable indexes at once. -/
def c6item : DownloadItem :=
  { id := 1, db_handle := 5, state := DownloadState.IN_PROGRESS,
    safety_state := SafetyState.SAFE, all_data_saved := false,
    received_bytes := 50, total_bytes := 100, full_path := ["a.bin"],
    start_time := 10, is_otr := false, is_temporary := false,
    prompt_user_for_save_location := false, last_os_error := 0 }

/-- A state in which `c6item` is in every index. -/
def c6state : MState :=
  { initialState with
      next_ptr := 1
      items := [(0, c6item)]
      downloads := [0]
      active_downloads := [(1, some 0)]
      in_progress := [(1, 0)]
      history_downloads := [(5, 0)] }

/-- C6 counterexample: RemoveDownload releases the Record and erases it from
the durable index and the master collection, but the active and in-progress
indexes still reference it afterwards (a dangling reference), so "no index
of the Coordinator still contains a reference" fails. -/
theorem removeDownload_dangling_reference_counterexample :
    afind c6state.history_downloads 5 = some 0 ∧
    (DownloadManager.RemoveDownload c6state 5).history_downloads = [] ∧
    afind (DownloadManager.RemoveDownload c6state 5).items 0 = none ∧
    afind (DownloadManager.RemoveDownload c6state 5).active_downloads 1 = some (some 0) ∧
    afind (DownloadManager.RemoveDownload c6state 5).in_progress 1 = some 0 ∧
    referencesPtr (DownloadManager.RemoveDownload c6state 5) 0 = true := by
  decide

/-- C6 amended: RemoveDownload erases the Record only from the durable index
and the master collection; it never touches the active, in-progress or
save-page indexes, so after it returns no index references the Record exactly
when the Record was not in those indexes at the call (as is the case for the
historical Records the operation is meant for) and no other durable key
referenced it. -/
theorem removeDownload_purges_history_and_master (s : MState) (h : Int) (p : Nat)
    (hfind : afind s.history_downloads h = some p)
    (hact : s.active_downloads.any (fun q => decide (q.2 = some p)) = false)
    (hip : s.in_progress.any (fun q => decide (q.2 = p)) = false)
    (hsp : p ∉ s.save_page_as_downloads)
    (hother : s.history_downloads.all
      (fun q => decide (q.2 ≠ p) || decide (q.1 = h)) = true) :
    referencesPtr (DownloadManager.RemoveDownload s h) p = false ∧
    afind (DownloadManager.RemoveDownload s h).items p = none := by
  unfold DownloadManager.RemoveDownload
  rw [hfind]
  constructor
  · unfold referencesPtr
    simp only [Bool.or_eq_false_iff]
    refine ⟨⟨⟨⟨?_, ?_⟩, hip⟩, ?_⟩, ?_⟩
    · simp only [decide_eq_false_iff_not]
      intro hmem
      rcases List.mem_filter.mp hmem with ⟨_, hdec⟩
      simp at hdec
    · exact hact
    · rw [List.any_eq_false]
      intro q hq
      rcases List.mem_filter.mp hq with ⟨hq1, hq2⟩
      have := List.all_eq_true.mp hother q hq1
      simp only [Bool.or_eq_true, decide_eq_true_eq] at this
      simp only [decide_eq_true_eq] at hq2
      simp only [decide_eq_true_eq]
      rcases this with h1 | h1
      · exact h1
      · exact absurd h1 hq2
    · simpa using hsp
  · exact afind_aerase_self s.items p

/-- A purge-eligible state: the historical Record `c6item` (made COMPLETE)
sits only in the durable index and the master collection. -/
def c6histState : MState :=
  { initialState with
      next_ptr := 1
      items := [(0, { c6item with state := DownloadState.COMPLETE })]
      downloads := [0]
      history_downloads := [(5, 0)] }

theorem removeDownload_purges_history_and_master_witness :
    referencesPtr (DownloadManager.RemoveDownload c6histState 5) 0 = false ∧
    afind (DownloadManager.RemoveDownload c6histState 5).items 0 = none := by
  have h := removeDownload_purges_history_and_master c6histState 5 0
    (by decide) (by decide) (by decide) (by decide) (by decide)
  exact h

/-! ## Claim C2: the path-commit operation -/

/-- A safe in-progress Record whose path has not yet been determined. -/
def c2item : DownloadItem :=
  { id := 1, db_handle := kUninitializedHandle, state := DownloadState.IN_PROGRESS,
    safety_state := SafetyState.SAFE, all_data_saved := false,
    received_bytes := 0, total_bytes := 100, full_path := [],
    start_time := 10, is_otr := false, is_temporary := false,
    prompt_user_for_save_location := false, last_os_error := 0 }

/-- A state in which `c2item` is active with no committed path. -/
def c2state : MState :=
  { initialState with
      next_ptr := 1
      items := [(0, c2item)]
      downloads := [0]
      active_downloads := [(1, some 0)] }

/-- The state after the first path commit for `c2item`. -/
def c2afterFirst : MState :=
  (DownloadManager.ContinueDownloadWithPath c2state 0 ["a.pdf"]).getD c2state

/-- C2 counterexample: the empty-path check in ContinueDownloadWithPath is a
debug-only DCHECK, not a guard — a second commit with a different chosen path
overwrites the Record's path, so repeating the commit does not leave the
target path unchanged. -/
theorem continueDownloadWithPath_second_commit_counterexample :
    (afind c2state.items 0).map DownloadItem.full_path = some [] ∧
    DownloadManager.ContinueDownloadWithPath c2state 0 ["a.pdf"] = some c2afterFirst ∧
    (afind c2afterFirst.items 0).map DownloadItem.full_path =
      some ["a.pdf.crdownload"] ∧
    (DownloadManager.ContinueDownloadWithPath c2afterFirst 0 ["b.pdf"]).map
        (fun t => (afind t.items 0).map DownloadItem.full_path) =
      some (some ["b.pdf.crdownload"]) ∧
    (DownloadManager.ContinueDownloadWithPath c2afterFirst 0 ["b.pdf"]).map
        (fun t => (afind t.items 0).map DownloadItem.full_path) ≠
      some ((afind c2afterFirst.items 0).map DownloadItem.full_path) := by
  decide

/-- C2 amended: a repeated commit leaves the Record's path unchanged only
when the same path is chosen again — ContinueDownloadWithPath derives the
stored path solely from the chosen file and the Record's danger flag, so
committing the same path twice is idempotent on the path, while the
empty-path precondition is only asserted (DCHECK), not enforced. -/
theorem continueDownloadWithPath_same_path_idempotent (s : MState) (ptr : Nat)
    (chosen : MPath) (s1 s2 : MState)
    (h1 : DownloadManager.ContinueDownloadWithPath s ptr chosen = some s1)
    (h2 : DownloadManager.ContinueDownloadWithPath s1 ptr chosen = some s2) :
    (afind s2.items ptr).map DownloadItem.full_path =
      (afind s1.items ptr).map DownloadItem.full_path := by
  unfold DownloadManager.ContinueDownloadWithPath at h1 h2
  cases hd : afind s.items ptr with
  | none => rw [hd] at h1; exact absurd h1 (by simp)
  | some d =>
    simp only [hd] at h1
    have hs1 := (Option.some.injEq _ _).mp h1
    have hfd1 : afind s1.items ptr = some ((d.OnPathDetermined chosen).Rename
        (if (d.OnPathDetermined chosen).IsDangerous
         then (d.OnPathDetermined chosen).full_path
         else getCrDownloadPath (d.OnPathDetermined chosen).full_path)) := by
      rw [← hs1]
      exact afind_ainsert_self _ ptr _
    simp only [hfd1] at h2
    have hs2 := (Option.some.injEq _ _).mp h2
    rw [← hs2, hfd1]
    rw [afind_ainsert_self]
    simp [DownloadItem.Rename, DownloadItem.OnPathDetermined, DownloadItem.IsDangerous]

/-- The state after recommitting the same path for `c2item`. -/
def c2afterSecond : MState :=
  (DownloadManager.ContinueDownloadWithPath c2afterFirst 0 ["a.pdf"]).getD c2afterFirst

theorem continueDownloadWithPath_same_path_idempotent_witness :
    (afind c2afterSecond.items 0).map DownloadItem.full_path =
      (afind c2afterFirst.items 0).map DownloadItem.full_path := by
  have h := continueDownloadWithPath_same_path_idempotent c2state 0 ["a.pdf"]
    c2afterFirst c2afterSecond (by decide) (by decide)
  exact h

/-! ## Claim C9: the prompting decision in path resolution -/

/-- C9: for a request without a forced filename, the administrator-managed
download directory forces prompting off; otherwise the prompt preference
turns prompting on unless the content is an extension install or the
generated name's extension is configured to auto-open, in which case the
preference is suppressed and prompting keeps its prior value. -/
theorem checkVisitedReferrerBeforeDone_prompt_policy
    (state : DownloadManager.DownloadStateInfo)
    (is_url_user_script mime_is_extension : Bool)
    (generated_name : String)
    (prompt_for_download download_path_managed : Bool)
    (default_download_path last_download_path : MPath)
    (auto_open is_dangerous_file_result : Bool)
    (hforce : state.force_file_name = []) :
    (download_path_managed = true →
      (DownloadManager.CheckVisitedReferrerBeforeDoneState state
        is_url_user_script mime_is_extension generated_name
        prompt_for_download download_path_managed
        default_download_path last_download_path
        auto_open is_dangerous_file_result).prompt_user_for_save_location = false) ∧
    (download_path_managed = false → prompt_for_download = true →
      (DownloadManager.CheckVisitedReferrerBeforeDoneState state
        is_url_user_script mime_is_extension generated_name
        prompt_for_download download_path_managed
        default_download_path last_download_path
        auto_open is_dangerous_file_result).is_extension_install = false →
      auto_open = false →
      (DownloadManager.CheckVisitedReferrerBeforeDoneState state
        is_url_user_script mime_is_extension generated_name
        prompt_for_download download_path_managed
        default_download_path last_download_path
        auto_open is_dangerous_file_result).prompt_user_for_save_location = true) ∧
    (download_path_managed = false → prompt_for_download = true →
      ((DownloadManager.CheckVisitedReferrerBeforeDoneState state
        is_url_user_script mime_is_extension generated_name
        prompt_for_download download_path_managed
        default_download_path last_download_path
        auto_open is_dangerous_file_result).is_extension_install = true ∨
       auto_open = true) →
      (DownloadManager.CheckVisitedReferrerBeforeDoneState state
        is_url_user_script mime_is_extension generated_name
        prompt_for_download download_path_managed
        default_download_path last_download_path
        auto_open is_dangerous_file_result).prompt_user_for_save_location =
        state.prompt_user_for_save_location) := by
  unfold DownloadManager.CheckVisitedReferrerBeforeDoneState
  cases hsp : state.prompt_user_for_save_location <;>
    cases is_url_user_script <;>
    cases mime_is_extension <;>
    cases hie : state.is_extension_install <;>
    cases prompt_for_download <;>
    cases download_path_managed <;>
    cases auto_open <;>
    simp_all [hforce]

/-- A request without a forced filename, not yet prompting, not an extension
install. -/
def c9info : DownloadManager.DownloadStateInfo :=
  { prompt_user_for_save_location := false
    is_extension_install := false
    is_dangerous_file := false
    is_dangerous_url := false
    has_user_gesture := true
    force_file_name := []
    suggested_path := [] }

theorem checkVisitedReferrerBeforeDone_prompt_policy_witness :
    (DownloadManager.CheckVisitedReferrerBeforeDoneState c9info false false
      "report.pdf" true true ["downloads"] [] false false).prompt_user_for_save_location
      = false ∧
    (DownloadManager.CheckVisitedReferrerBeforeDoneState c9info false false
      "report.pdf" true false ["downloads"] [] false false).prompt_user_for_save_location
      = true := by
  have hmanaged := checkVisitedReferrerBeforeDone_prompt_policy c9info false false
    "report.pdf" true true ["downloads"] [] false false rfl
  have hfree := checkVisitedReferrerBeforeDone_prompt_policy c9info false false
    "report.pdf" true false ["downloads"] [] false false rfl
  exact ⟨hmanaged.1 rfl, hfree.2.1 rfl rfl (by decide) rfl⟩

/-! ## Claim C3: Shutdown -/

theorem deleteDownload_frame (s : MState) (p : Nat) :
    (DownloadManager.DeleteDownload s p).shutdown_needed = s.shutdown_needed ∧
    (DownloadManager.DeleteDownload s p).downloads = s.downloads ∧
    (DownloadManager.DeleteDownload s p).items = s.items := by
  unfold DownloadManager.DeleteDownload
  cases afind s.items p <;> exact ⟨rfl, rfl, rfl⟩

theorem cancelDownloadItem_frame (s : MState) (p : Nat) :
    (DownloadManager.CancelDownloadItem s p).shutdown_needed = s.shutdown_needed ∧
    (DownloadManager.CancelDownloadItem s p).downloads = s.downloads := by
  unfold DownloadManager.CancelDownloadItem
  cases afind s.items p <;> exact ⟨rfl, rfl⟩

theorem deleteDownload_events_mono (s : MState) (p : Nat) (e : MEvent)
    (h : e ∈ s.events) : e ∈ (DownloadManager.DeleteDownload s p).events := by
  unfold DownloadManager.DeleteDownload
  cases afind s.items p
  · exact h
  · simpa using Or.inl h

theorem cancelDownloadItem_events_mono (s : MState) (p : Nat) (e : MEvent)
    (h : e ∈ s.events) : e ∈ (DownloadManager.CancelDownloadItem s p).events := by
  unfold DownloadManager.CancelDownloadItem
  cases afind s.items p
  · exact h
  · simpa using Or.inl h

theorem cancelDownloadItem_items_ne (s : MState) (p q : Nat) (h : p ≠ q) :
    afind (DownloadManager.CancelDownloadItem s p).items q = afind s.items q := by
  unfold DownloadManager.CancelDownloadItem
  cases afind s.items p
  · rfl
  · exact afind_ainsert_ne s.items p q _ h

theorem shutdownLoop_shutdown_needed (l : List Nat) : ∀ s : MState,
    (DownloadManager.ShutdownLoop s l).shutdown_needed = s.shutdown_needed := by
  induction l with
  | nil => intro s; rfl
  | cons p rest ih =>
    intro s
    unfold DownloadManager.ShutdownLoop
    rw [ih]
    split
    · rfl
    · split
      · exact (deleteDownload_frame s p).1
      · split
        · exact (cancelDownloadItem_frame s p).1
        · rfl

theorem shutdownLoop_downloads (l : List Nat) : ∀ s : MState,
    (DownloadManager.ShutdownLoop s l).downloads = s.downloads := by
  induction l with
  | nil => intro s; rfl
  | cons p rest ih =>
    intro s
    unfold DownloadManager.ShutdownLoop
    rw [ih]
    split
    · rfl
    · split
      · exact (deleteDownload_frame s p).2.1
      · split
        · exact (cancelDownloadItem_frame s p).2
        · rfl

theorem shutdownLoop_events_mono (l : List Nat) : ∀ (s : MState) (e : MEvent),
    e ∈ s.events → e ∈ (DownloadManager.ShutdownLoop s l).events := by
  induction l with
  | nil => intro s e h; exact h
  | cons p rest ih =>
    intro s e h
    unfold DownloadManager.ShutdownLoop
    apply ih
    split
    · exact h
    · split
      · exact deleteDownload_events_mono s p e h
      · split
        · exact List.mem_append.mpr (Or.inl (cancelDownloadItem_events_mono s p e h))
        · exact h

theorem shutdownLoop_single_items_ne (s : MState) (p' q : Nat) (h : p' ≠ q) :
    afind (DownloadManager.ShutdownLoop s [p']).items q = afind s.items q := by
  unfold DownloadManager.ShutdownLoop
  split
  · rfl
  · split
    · show afind (DownloadManager.DeleteDownload s p').items q = afind s.items q
      rw [(deleteDownload_frame s p').2.2]
    · split
      · show afind (DownloadManager.CancelDownloadItem s p').items q = afind s.items q
        exact cancelDownloadItem_items_ne s p' q h
      · rfl

theorem shutdownLoop_single_processes (s : MState) (p : Nat) (d : DownloadItem)
    (hfd : afind s.items p = some d) :
    (d.safety_state = SafetyState.DANGEROUS ∧ d.IsPartialDownload = true →
      MEvent.FileDeleted d.full_path ∈ (DownloadManager.ShutdownLoop s [p]).events) ∧
    (d.safety_state ≠ SafetyState.DANGEROUS → d.IsPartialDownload = true →
      MEvent.DownloadItemCancelled d.id ∈ (DownloadManager.ShutdownLoop s [p]).events) := by
  unfold DownloadManager.ShutdownLoop
  simp only [hfd]
  constructor
  · intro hc
    rw [if_pos hc]
    show MEvent.FileDeleted d.full_path ∈ (DownloadManager.DeleteDownload s p).events
    unfold DownloadManager.DeleteDownload
    simp [hfd]
  · intro hnd hpart
    rw [if_neg (fun hc => hnd hc.1), if_pos hpart]
    show MEvent.DownloadItemCancelled d.id ∈
      (DownloadManager.CancelDownloadItem s p).events ++ [MEvent.HistoryUpdateEntry p]
    refine List.mem_append.mpr (Or.inl ?_)
    unfold DownloadManager.CancelDownloadItem
    simp [hfd]

theorem shutdownLoop_processes (l : List Nat) : ∀ (s : MState) (p : Nat) (d : DownloadItem),
    p ∈ l → afind s.items p = some d →
    (d.safety_state = SafetyState.DANGEROUS ∧ d.IsPartialDownload = true →
      MEvent.FileDeleted d.full_path ∈ (DownloadManager.ShutdownLoop s l).events) ∧
    (d.safety_state ≠ SafetyState.DANGEROUS → d.IsPartialDownload = true →
      MEvent.DownloadItemCancelled d.id ∈ (DownloadManager.ShutdownLoop s l).events) := by
  induction l with
  | nil =>
    intro s p d hmem _
    exact absurd hmem (List.not_mem_nil p)
  | cons p2 rest ih =>
    intro s p d hmem hfd
    have hcons : DownloadManager.ShutdownLoop s (p2 :: rest) =
        DownloadManager.ShutdownLoop (DownloadManager.ShutdownLoop s [p2]) rest := rfl
    rw [hcons]
    by_cases hpp : p = p2
    · subst hpp
      have hsingle := shutdownLoop_single_processes s p d hfd
      exact ⟨fun hc => shutdownLoop_events_mono rest _ _ (hsingle.1 hc),
             fun hnd hp => shutdownLoop_events_mono rest _ _ (hsingle.2 hnd hp)⟩
    · have hmem2 : p ∈ rest := by
        rcases List.mem_cons.mp hmem with h | h
        · exact absurd h hpp
        · exact h
      have hfd2 : afind (DownloadManager.ShutdownLoop s [p2]).items p = some d := by
        rw [shutdownLoop_single_items_ne s p2 p (fun h => hpp h.symm)]
        exact hfd
      exact ih _ p d hmem2 hfd2

theorem afind_filter_not_mem {α : Type} (m : List (Nat × α)) (L : List Nat) (p : Nat)
    (h : p ∈ L) : afind (m.filter (fun q => decide (q.1 ∉ L))) p = none := by
  induction m with
  | nil => rfl
  | cons hd tl ih =>
    rw [List.filter_cons]
    by_cases hm : hd.1 ∈ L
    · rw [if_neg]
      · exact ih
      · simp [hm]
    · rw [if_pos]
      · have hne : hd.1 ≠ p := fun hc => hm (hc ▸ h)
        obtain ⟨k1, v1⟩ := hd
        simpa [afind, hne] using ih
      · simp [hm]

/-- C3: Shutdown is idempotent, a no-op when initialization never set the
lifecycle flag, and otherwise deletes the on-disk data of every DANGEROUS
partial Record, cancels every other partial Record, empties every index
(master, active, in-progress, durable, debug-only) and releases every owned
Record. -/
theorem shutdown_spec (s : MState) :
    DownloadManager.Shutdown (DownloadManager.Shutdown s) = DownloadManager.Shutdown s ∧
    (s.shutdown_needed = false → DownloadManager.Shutdown s = s) ∧
    (s.shutdown_needed = true →
      (DownloadManager.Shutdown s).downloads = [] ∧
      (DownloadManager.Shutdown s).active_downloads = [] ∧
      (DownloadManager.Shutdown s).in_progress = [] ∧
      (DownloadManager.Shutdown s).history_downloads = [] ∧
      (DownloadManager.Shutdown s).save_page_as_downloads = [] ∧
      (∀ p, p ∈ s.downloads → afind (DownloadManager.Shutdown s).items p = none) ∧
      (∀ p d, p ∈ s.downloads → afind s.items p = some d →
        (d.safety_state = SafetyState.DANGEROUS ∧ d.IsPartialDownload = true →
          MEvent.FileDeleted d.full_path ∈ (DownloadManager.Shutdown s).events) ∧
        (d.safety_state ≠ SafetyState.DANGEROUS → d.IsPartialDownload = true →
          MEvent.DownloadItemCancelled d.id ∈ (DownloadManager.Shutdown s).events))) := by
  have hid : ∀ t : MState, t.shutdown_needed = false → DownloadManager.Shutdown t = t := by
    intro t ht
    unfold DownloadManager.Shutdown
    rw [if_pos ht]
  by_cases hs : s.shutdown_needed = false
  · refine ⟨?_, fun _ => hid s hs, fun hc => absurd hs (by simp [hc])⟩
    rw [hid s hs, hid s hs]
  · have hflag : (DownloadManager.Shutdown s).shutdown_needed = false := by
      unfold DownloadManager.Shutdown
      rw [if_neg hs]
      simp only [shutdownLoop_shutdown_needed]
    have hval : DownloadManager.Shutdown s =
        (let s0 := { s with shutdown_needed := false
                            events := s.events ++ [MEvent.ManagerGoingDown] }
         let s1 := DownloadManager.ShutdownLoop s0 s0.downloads
         { s1 with downloads := []
                   in_progress := []
                   active_downloads := []
                   history_downloads := []
                   save_page_as_downloads := []
                   items := s1.items.filter (fun q => decide (q.1 ∉ s1.downloads))
                   download_history := initialDownloadHistory }) := by
      unfold DownloadManager.Shutdown
      rw [if_neg hs]
    refine ⟨hid _ hflag, fun hc => absurd hc hs, fun _ => ?_⟩
    rw [hval]
    refine ⟨rfl, rfl, rfl, rfl, rfl, ?_, ?_⟩
    · intro p hp
      show afind ((DownloadManager.ShutdownLoop
          { s with shutdown_needed := false
                   events := s.events ++ [MEvent.ManagerGoingDown] }
          s.downloads).items.filter
            (fun q => decide (q.1 ∉ (DownloadManager.ShutdownLoop
              { s with shutdown_needed := false
                       events := s.events ++ [MEvent.ManagerGoingDown] }
              s.downloads).downloads))) p = none
      apply afind_filter_not_mem
      rw [shutdownLoop_downloads]
      exact hp
    · intro p d hp hfd
      exact shutdownLoop_processes s.downloads
        { s with shutdown_needed := false
                 events := s.events ++ [MEvent.ManagerGoingDown] } p d hp hfd

/-- A DANGEROUS partial Record holding a reserved temporary file. -/
def c3dangerous : DownloadItem :=
  { c2item with safety_state := SafetyState.DANGEROUS
                full_path := ["tmp", "Unconfirmed 1.crdownload"] }

/-- A SAFE partial Record. -/
def c3safe : DownloadItem :=
  { c2item with id := 2, full_path := ["b.bin"] }

/-- A state holding one DANGEROUS partial Record and one SAFE partial Record,
used to instantiate C3's theorem. -/
def c3state : MState :=
  { initialState with
      next_ptr := 2
      items := [(0, c3dangerous), (1, c3safe)]
      downloads := [0, 1]
      active_downloads := [(1, some 0), (2, some 1)]
      in_progress := [(1, 0), (2, 1)] }

theorem shutdown_spec_witness :
    (DownloadManager.Shutdown c3state).downloads = [] ∧
    (DownloadManager.Shutdown c3state).active_downloads = [] ∧
    afind (DownloadManager.Shutdown c3state).items 0 = none ∧
    MEvent.FileDeleted ["tmp", "Unconfirmed 1.crdownload"] ∈
      (DownloadManager.Shutdown c3state).events ∧
    MEvent.DownloadItemCancelled 2 ∈ (DownloadManager.Shutdown c3state).events := by
  have h := (shutdown_spec c3state).2.2 (by decide)
  refine ⟨h.1, h.2.1, h.2.2.2.2.2.1 0 (by decide), ?_, ?_⟩
  · exact (h.2.2.2.2.2.2 0 c3dangerous (by decide) (by decide)).1 (by decide)
  · exact (h.2.2.2.2.2.2 1 c3safe (by decide) (by decide)).2 (by decide) (by decide)

/-! ## Claim C8: bulk removal by time range -/

/-- Whether RemoveDownloadsBetween selects a durable-index entry for purging:
its Record's start time lies in the range and its life state is terminal. -/
def selectedForRemoval (items : List (Nat × DownloadItem))
    (remove_begin remove_end : Int) (q : Int × Nat) : Bool :=
  match afind items q.2 with
  | none => false
  | some d => DownloadManager.inRemovalRange d remove_begin remove_end

theorem foldl_serase_filter (ks : List Nat) : ∀ l : List Nat,
    ks.foldl serase l = l.filter (fun x => decide (x ∉ ks)) := by
  induction ks with
  | nil =>
    intro l
    simp
  | cons k rest ih =>
    intro l
    rw [List.foldl_cons, ih]
    unfold serase
    rw [List.filter_filter]
    apply List.filter_congr
    intro x _
    by_cases h1 : x = k
    · simp [h1]
    · by_cases h2 : x ∈ rest <;> simp [h1, h2]

theorem foldl_aerase_filter {α : Type} (ks : List Nat) : ∀ m : List (Nat × α),
    ks.foldl aerase m = m.filter (fun q => decide (q.1 ∉ ks)) := by
  induction ks with
  | nil =>
    intro m
    simp
  | cons k rest ih =>
    intro m
    rw [List.foldl_cons, ih]
    unfold aerase
    rw [List.filter_filter]
    apply List.filter_congr
    intro q _
    by_cases h1 : q.1 = k
    · simp [h1]
    · by_cases h2 : q.1 ∈ rest <;> simp [h1, h2]

theorem foldl_aerase_int_filter {α : Type} (ks : List Int) : ∀ m : List (Int × α),
    ks.foldl aerase m = m.filter (fun q => decide (q.1 ∉ ks)) := by
  induction ks with
  | nil =>
    intro m
    simp
  | cons k rest ih =>
    intro m
    rw [List.foldl_cons, ih]
    unfold aerase
    rw [List.filter_filter]
    apply List.filter_congr
    intro q _
    by_cases h1 : q.1 = k
    · simp [h1]
    · by_cases h2 : q.1 ∈ rest <;> simp [h1, h2]

theorem mem_entry_unique {α : Type} (m : List (Int × α)) :
    (akeys m).Nodup → ∀ q q' : Int × α, q ∈ m → q' ∈ m → q.1 = q'.1 → q = q' := by
  induction m with
  | nil =>
    intro _ q q' hq
    exact absurd hq (List.not_mem_nil q)
  | cons hd tl ih =>
    intro hnd q q' hq hq' hk
    simp only [akeys, List.map_cons, List.nodup_cons] at hnd
    rcases List.mem_cons.mp hq with rfl | hq2
    · rcases List.mem_cons.mp hq' with rfl | hq'2
      · rfl
      · exact absurd (hk ▸ List.mem_map_of_mem Prod.fst hq'2) hnd.1
    · rcases List.mem_cons.mp hq' with rfl | hq'2
      · exact absurd (hk ▸ List.mem_map_of_mem Prod.fst hq2) hnd.1
      · exact ih hnd.2 q q' hq2 hq'2 hk

theorem removeDownloadsBetweenLoop_spec (entries : List (Int × Nat)) :
    ∀ (s : MState) (remove_begin remove_end : Int) (pending : List Nat)
      (s' : MState) (pending' : List Nat),
    DownloadManager.RemoveDownloadsBetweenLoop s entries remove_begin remove_end pending =
      some (s', pending') →
    pending' = pending ++
      (entries.filter (selectedForRemoval s.items remove_begin remove_end)).map Prod.snd ∧
    s'.history_downloads =
      ((entries.filter (selectedForRemoval s.items remove_begin remove_end)).map
        Prod.fst).foldl aerase s.history_downloads ∧
    s'.items = s.items ∧ s'.downloads = s.downloads ∧ s'.events = s.events ∧
    s'.active_downloads = s.active_downloads ∧ s'.in_progress = s.in_progress ∧
    s'.save_page_as_downloads = s.save_page_as_downloads ∧
    s'.next_ptr = s.next_ptr ∧ s'.shutdown_needed = s.shutdown_needed ∧
    s'.download_history = s.download_history ∧
    s'.last_download_path = s.last_download_path := by
  induction entries with
  | nil =>
    intro s remove_begin remove_end pending s' pending' h
    unfold DownloadManager.RemoveDownloadsBetweenLoop at h
    simp only [Option.some.injEq, Prod.mk.injEq] at h
    obtain ⟨rfl, rfl⟩ := h
    simp
  | cons hd rest ih =>
    intro s remove_begin remove_end pending s' pending' h
    obtain ⟨hk, hptr⟩ := hd
    unfold DownloadManager.RemoveDownloadsBetweenLoop at h
    cases hfd : afind s.items hptr with
    | none =>
      rw [hfd] at h
      exact absurd h (by simp)
    | some d =>
      simp only [hfd] at h
      have hselhd : selectedForRemoval s.items remove_begin remove_end (hk, hptr) =
          DownloadManager.inRemovalRange d remove_begin remove_end := by
        unfold selectedForRemoval
        rw [hfd]
      by_cases hsel : DownloadManager.inRemovalRange d remove_begin remove_end = true
      · rw [if_pos hsel] at h
        by_cases hchk : DownloadManager.AssertQueueStateConsistent s hptr d = false
        · rw [if_pos hchk] at h
          exact absurd h (by simp)
        · rw [if_neg hchk] at h
          have hih := ih { s with history_downloads := aerase s.history_downloads hk }
            remove_begin remove_end (pending ++ [hptr]) s' pending' h
          rw [List.filter_cons, hselhd, if_pos hsel, List.map_cons, List.map_cons,
              List.foldl_cons]
          refine ⟨?_, hih.2.1, hih.2.2.1, hih.2.2.2.1, hih.2.2.2.2.1,
            hih.2.2.2.2.2.1, hih.2.2.2.2.2.2.1, hih.2.2.2.2.2.2.2.1,
            hih.2.2.2.2.2.2.2.2.1, hih.2.2.2.2.2.2.2.2.2.1,
            hih.2.2.2.2.2.2.2.2.2.2.1, hih.2.2.2.2.2.2.2.2.2.2.2⟩
          rw [hih.1]
          simp
      · rw [if_neg hsel] at h
        have hih := ih s remove_begin remove_end pending s' pending' h
        rw [List.filter_cons, hselhd, if_neg hsel]
        exact hih

/-- C8: RemoveDownloadsBetween purges from the durable index and the master
collection exactly the Records whose start time lies in
`[remove_begin, remove_end)` (a null end meaning unbounded) and whose life
state is terminal (COMPLETE, CANCELLED or INTERRUPTED), returns their count,
and appends exactly one batched observer notification when at least one
Record was purged and none otherwise. -/
theorem removeDownloadsBetween_spec (s : MState) (remove_begin remove_end : Int)
    (s' : MState) (n : Nat)
    (hnd : (akeys s.history_downloads).Nodup)
    (h : DownloadManager.RemoveDownloadsBetween s remove_begin remove_end =
      some (s', n)) :
    s'.history_downloads = s.history_downloads.filter
      (fun q => !(selectedForRemoval s.items remove_begin remove_end q)) ∧
    n = (s.history_downloads.filter
      (selectedForRemoval s.items remove_begin remove_end)).length ∧
    s'.downloads = s.downloads.filter (fun p => decide (p ∉
      (s.history_downloads.filter
        (selectedForRemoval s.items remove_begin remove_end)).map Prod.snd)) ∧
    s'.items = s.items.filter (fun q => decide (q.1 ∉
      (s.history_downloads.filter
        (selectedForRemoval s.items remove_begin remove_end)).map Prod.snd)) ∧
    s'.events = s.events ++ [MEvent.HistoryRemoveEntriesBetween remove_begin remove_end]
      ++ (if n = 0 then [] else [MEvent.ModelChanged]) := by
  unfold DownloadManager.RemoveDownloadsBetween at h
  cases hloop : DownloadManager.RemoveDownloadsBetweenLoop
      { s with events := s.events ++
          [MEvent.HistoryRemoveEntriesBetween remove_begin remove_end] }
      ({ s with events := s.events ++
          [MEvent.HistoryRemoveEntriesBetween remove_begin remove_end] } :
        MState).history_downloads
      remove_begin remove_end [] with
  | none =>
    simp only [hloop] at h
    exact absurd h (by simp)
  | some r =>
    obtain ⟨s1, pending⟩ := r
    simp only [hloop] at h
    have hls := removeDownloadsBetweenLoop_spec _ _ remove_begin remove_end []
      s1 pending hloop
    have hpend : pending = (s.history_downloads.filter
        (selectedForRemoval s.items remove_begin remove_end)).map Prod.snd := by
      have h1 := hls.1
      simpa using h1
    have hhist : s1.history_downloads = ((s.history_downloads.filter
        (selectedForRemoval s.items remove_begin remove_end)).map Prod.fst).foldl
          aerase s.history_downloads := hls.2.1
    have hsitems : s1.items = s.items := hls.2.2.1
    have hsdl : s1.downloads = s.downloads := hls.2.2.2.1
    have hsev : s1.events = s.events ++
        [MEvent.HistoryRemoveEntriesBetween remove_begin remove_end] := hls.2.2.2.2.1
    by_cases hpe : pending.isEmpty = true
    · rw [if_pos hpe] at h
      simp only [Option.some.injEq, Prod.mk.injEq] at h
      obtain ⟨rfl, rfl⟩ := h
      have hplnil : pending = [] := by
        cases pending with
        | nil => rfl
        | cons a l => simp [List.isEmpty] at hpe
      have hfilnil : s.history_downloads.filter
          (selectedForRemoval s.items remove_begin remove_end) = [] := by
        rw [hplnil] at hpend
        exact List.map_eq_nil.mp hpend.symm
      have hallfalse := List.filter_eq_nil.mp hfilnil
      refine ⟨?_, ?_, ?_, ?_, ?_⟩
      · rw [hhist, hfilnil]
        simp only [List.map_nil, List.foldl_nil]
        symm
        apply List.filter_eq_self.mpr
        intro q hq
        simpa using hallfalse q hq
      · rw [hfilnil]
        rfl
      · rw [hsdl, hfilnil]
        simp
      · rw [hsitems, hfilnil]
        simp
      · rw [hsev]
        simp
    · rw [if_neg hpe] at h
      simp only [Option.some.injEq, Prod.mk.injEq] at h
      obtain ⟨rfl, rfl⟩ := h
      have hpnnil : pending ≠ [] := by
        intro hc
        rw [hc] at hpe
        exact hpe rfl
      have hnz : pending.length ≠ 0 := by
        intro hc
        exact hpnnil (List.length_eq_zero.mp hc)
      refine ⟨?_, ?_, ?_, ?_, ?_⟩
      · show s1.history_downloads = _
        rw [hhist, foldl_aerase_int_filter]
        apply List.filter_congr
        intro q hq
        by_cases hq1 : selectedForRemoval s.items remove_begin remove_end q = true
        · have hmem : q.1 ∈ (s.history_downloads.filter
              (selectedForRemoval s.items remove_begin remove_end)).map Prod.fst :=
            List.mem_map_of_mem Prod.fst (List.mem_filter.mpr ⟨hq, hq1⟩)
          simp [hmem, hq1]
        · have hnmem : q.1 ∉ (s.history_downloads.filter
              (selectedForRemoval s.items remove_begin remove_end)).map Prod.fst := by
            intro hmem
            obtain ⟨q2, hq2, hk⟩ := List.mem_map.mp hmem
            obtain ⟨hq2m, hq2sel⟩ := List.mem_filter.mp hq2
            have heq := mem_entry_unique s.history_downloads hnd q2 q hq2m hq hk
            rw [heq] at hq2sel
            exact hq1 hq2sel
          have hq1f : selectedForRemoval s.items remove_begin remove_end q = false :=
            Bool.not_eq_true _ ▸ Bool.eq_false_iff.mpr hq1
          simp [hnmem, hq1f]
      · rw [hpend, List.length_map]
      · show pending.foldl serase s1.downloads = _
        rw [foldl_serase_filter, hsdl, hpend]
      · show pending.foldl aerase s1.items = _
        rw [foldl_aerase_filter, hsitems, hpend]
      · show s1.events ++ [MEvent.ModelChanged] = _
        rw [hsev, if_neg hnz]

/-- A historical Record with the given durable handle, start time and life
state. -/
def c8histItem (handle : Int) (t : Int) (st : DownloadState) : DownloadItem :=
  { id := 10 + handle, db_handle := handle, state := st,
    safety_state := SafetyState.SAFE,
    all_data_saved := decide (st = DownloadState.COMPLETE),
    received_bytes := 100, total_bytes := 100, full_path := ["f"],
    start_time := t, is_otr := false, is_temporary := false,
    prompt_user_for_save_location := false, last_os_error := 0 }

/-- Five historical Records, three of which are COMPLETE with start time in
`[100, 200)`; the fifth is still in progress. -/
def c8state : MState :=
  { initialState with
      next_ptr := 5
      items := [(0, c8histItem 1 100 DownloadState.COMPLETE),
                (1, c8histItem 2 150 DownloadState.COMPLETE),
                (2, c8histItem 3 190 DownloadState.COMPLETE),
                (3, c8histItem 4 250 DownloadState.COMPLETE),
                (4, c8histItem 5 120 DownloadState.IN_PROGRESS)]
      downloads := [0, 1, 2, 3, 4]
      history_downloads := [(1, 0), (2, 1), (3, 2), (4, 3), (5, 4)]
      active_downloads := [(15, some 4)]
      in_progress := [(15, 4)] }

/-- The result of purging `[100, 200)` from `c8state`. -/
def c8result : MState × Nat :=
  (DownloadManager.RemoveDownloadsBetween c8state 100 200).getD (c8state, 0)

theorem removeDownloadsBetween_spec_witness :
    c8result.2 = (c8state.history_downloads.filter
      (selectedForRemoval c8state.items 100 200)).length ∧
    c8result.2 = 3 ∧
    c8result.1.events = c8state.events ++
      [MEvent.HistoryRemoveEntriesBetween 100 200] ++ [MEvent.ModelChanged] := by
  have h := removeDownloadsBetween_spec c8state 100 200 c8result.1 c8result.2
    (by decide) (by decide)
  refine ⟨h.2.1, by decide, ?_⟩
  have he := h.2.2.2.2
  rw [he]
  rfl

/-! ## Claim C10: durable-index handles -/

/-- The durable-index handle invariant: no key of `history_downloads_` is the
uninitialized sentinel, the keys are pairwise distinct, and the fake-handle
generator sits strictly below the sentinel. -/
def histHandleInv (s : MState) : Prop :=
  (∀ k ∈ akeys s.history_downloads, k ≠ kUninitializedHandle) ∧
  (akeys s.history_downloads).Nodup ∧
  s.download_history.next_fake_db_handle < kUninitializedHandle

theorem acontains_eq_true_iff {κ α : Type} [DecidableEq κ] (m : List (κ × α)) (k : κ) :
    acontains m k = true ↔ k ∈ akeys m := by
  induction m with
  | nil => simp [acontains, afind, akeys]
  | cons hd tl ih =>
    obtain ⟨k1, v1⟩ := hd
    by_cases h : k1 = k
    · simp [acontains, afind, akeys, h]
    · simp only [acontains, afind, if_pos, if_neg h, akeys, List.map_cons,
        List.mem_cons] at ih ⊢
      rw [ih]
      constructor
      · exact Or.inr
      · rintro (rfl | h2)
        · exact absurd rfl h
        · exact h2

theorem histHandleInv_of_frame (s s' : MState)
    (h1 : s'.history_downloads = s.history_downloads)
    (h2 : s'.download_history = s.download_history)
    (hinv : histHandleInv s) : histHandleInv s' := by
  unfold histHandleInv
  rw [h1, h2]
  exact hinv

theorem getActiveDownloadItem_frame (s : MState) (download_id : Int) :
    (DownloadManager.GetActiveDownloadItem s download_id).1.history_downloads =
      s.history_downloads ∧
    (DownloadManager.GetActiveDownloadItem s download_id).1.download_history =
      s.download_history ∧
    (DownloadManager.GetActiveDownloadItem s download_id).1.items = s.items := by
  unfold DownloadManager.GetActiveDownloadItem
  cases afind s.active_downloads download_id <;> exact ⟨rfl, rfl, rfl⟩

theorem maybeCompleteDownload_frame (s : MState) (ptr : Nat) (s2 : MState) (b : Bool)
    (h : DownloadManager.MaybeCompleteDownload s ptr = some (s2, b)) :
    s2.history_downloads = s.history_downloads ∧
    s2.download_history = s.download_history := by
  unfold DownloadManager.MaybeCompleteDownload at h
  cases hfd : afind s.items ptr with
  | none => rw [hfd] at h; exact absurd h (by simp)
  | some d =>
    simp only [hfd] at h
    split at h <;>
    · simp only [Option.some.injEq, Prod.mk.injEq] at h
      obtain ⟨h1, _⟩ := h
      rw [← h1]
      exact ⟨rfl, rfl⟩

theorem continueDownloadWithPath_frame (s : MState) (ptr : Nat) (path : MPath)
    (s' : MState)
    (h : DownloadManager.ContinueDownloadWithPath s ptr path = some s') :
    s'.history_downloads = s.history_downloads ∧
    s'.download_history = s.download_history := by
  unfold DownloadManager.ContinueDownloadWithPath at h
  cases hfd : afind s.items ptr with
  | none => rw [hfd] at h; exact absurd h (by simp)
  | some d =>
    simp only [hfd, Option.some.injEq] at h
    rw [← h]
    exact ⟨rfl, rfl⟩

theorem updateDownload_frame (s : MState) (download_id size : Int) (s' : MState)
    (h : DownloadManager.UpdateDownload s download_id size = some s') :
    s'.history_downloads = s.history_downloads ∧
    s'.download_history = s.download_history := by
  unfold DownloadManager.UpdateDownload at h
  cases hact : afind s.active_downloads download_id with
  | none =>
    rw [hact] at h
    simp only [Option.some.injEq] at h
    rw [← h]
    exact ⟨rfl, rfl⟩
  | some v =>
    cases v with
    | none =>
      simp only [hact] at h
      exact absurd h (by simp)
    | some ptr =>
      simp only [hact] at h
      cases hfd : afind s.items ptr with
      | none =>
        simp only [hfd] at h
        exact absurd h (by simp)
      | some d =>
        simp only [hfd] at h
        split at h <;>
        · simp only [Option.some.injEq] at h
          rw [← h]
          exact ⟨rfl, rfl⟩

theorem onAllDataSaved_frame (s : MState) (download_id size : Int) (s' : MState)
    (h : DownloadManager.OnAllDataSaved s download_id size = some s') :
    s'.history_downloads = s.history_downloads ∧
    s'.download_history = s.download_history := by
  unfold DownloadManager.OnAllDataSaved at h
  split at h
  · simp only [Option.some.injEq] at h
    rw [← h]
    exact ⟨rfl, rfl⟩
  · cases hact : afind s.active_downloads download_id with
    | none =>
      rw [hact] at h
      simp only [Option.some.injEq] at h
      rw [← h]
      exact ⟨rfl, rfl⟩
    | some v =>
      cases v with
      | none =>
        simp only [hact] at h
        exact absurd h (by simp)
      | some ptr =>
        simp only [hact] at h
        cases hfd : afind s.items ptr with
        | none =>
          simp only [hfd] at h
          exact absurd h (by simp)
        | some d =>
          simp only [hfd] at h
          cases hmc : DownloadManager.MaybeCompleteDownload
              { s with items := ainsert s.items ptr (d.OnAllDataSaved size) } ptr with
          | none =>
            simp only [hmc] at h
            exact absurd h (by simp)
          | some r =>
            obtain ⟨s2, b⟩ := r
            simp only [hmc, Option.some.injEq] at h
            have hf := maybeCompleteDownload_frame _ ptr s2 b hmc
            rw [← h]
            exact ⟨hf.1, hf.2⟩

theorem downloadCancelled_frame (s : MState) (download_id : Int) (s' : MState)
    (h : DownloadManager.DownloadCancelled s download_id = some s') :
    s'.history_downloads = s.history_downloads ∧
    s'.download_history = s.download_history := by
  unfold DownloadManager.DownloadCancelled at h
  cases hip : afind s.in_progress download_id with
  | none =>
    rw [hip] at h
    simp only [Option.some.injEq] at h
    rw [← h]
    exact ⟨rfl, rfl⟩
  | some ptr =>
    rw [hip] at h
    cases hfd : afind s.items ptr with
    | none =>
      simp only [hfd] at h
      exact absurd h (by simp)
    | some d =>
      simp only [hfd] at h
      split at h <;>
      · simp only [DownloadManager.DownloadCancelledInternal, Option.some.injEq] at h
        rw [← h]
        exact ⟨rfl, rfl⟩

theorem onDownloadError_frame (s : MState) (download_id size os_error : Int)
    (s' : MState)
    (h : DownloadManager.OnDownloadError s download_id size os_error = some s') :
    s'.history_downloads = s.history_downloads ∧
    s'.download_history = s.download_history := by
  unfold DownloadManager.OnDownloadError at h
  cases hact : afind s.active_downloads download_id with
  | none =>
    rw [hact] at h
    simp only [Option.some.injEq] at h
    rw [← h]
    exact ⟨rfl, rfl⟩
  | some v =>
    cases v with
    | none =>
      simp only [hact] at h
      exact absurd h (by simp)
    | some ptr =>
      simp only [hact] at h
      cases hfd : afind s.items ptr with
      | none =>
        simp only [hfd] at h
        exact absurd h (by simp)
      | some d =>
        simp only [hfd] at h
        split at h <;>
        · simp only [Option.some.injEq] at h
          rw [← h]
          exact ⟨rfl, rfl⟩

theorem checkDownloadUrlDone_frame (s : MState) (download_id : Int)
    (is_dangerous_url : Bool) (s' : MState)
    (h : DownloadManager.CheckDownloadUrlDone s download_id is_dangerous_url =
      some s') :
    s'.history_downloads = s.history_downloads ∧
    s'.download_history = s.download_history := by
  unfold DownloadManager.CheckDownloadUrlDone DownloadManager.GetActiveDownloadItem at h
  cases hact : afind s.active_downloads download_id with
  | none =>
    simp only [hact, Option.some.injEq] at h
    rw [← h]
    exact ⟨rfl, rfl⟩
  | some v =>
    cases v with
    | none =>
      simp only [hact, Option.some.injEq] at h
      rw [← h]
      exact ⟨rfl, rfl⟩
    | some ptr =>
      simp only [hact] at h
      cases hfd : afind s.items ptr with
      | none =>
        simp only [hfd] at h
        exact absurd h (by simp)
      | some d =>
        simp only [hfd, Option.some.injEq] at h
        rw [← h]
        exact ⟨rfl, rfl⟩

theorem fileSelectionCanceled_frame (s : MState) (download_id : Int) (s' : MState)
    (h : DownloadManager.FileSelectionCanceled s download_id = some s') :
    s'.history_downloads = s.history_downloads ∧
    s'.download_history = s.download_history := by
  unfold DownloadManager.FileSelectionCanceled DownloadManager.GetActiveDownloadItem at h
  cases hact : afind s.active_downloads download_id with
  | none =>
    simp only [hact, Option.some.injEq] at h
    rw [← h]
    exact ⟨rfl, rfl⟩
  | some v =>
    cases v with
    | none =>
      simp only [hact, Option.some.injEq] at h
      rw [← h]
      exact ⟨rfl, rfl⟩
    | some ptr =>
      simp only [hact] at h
      cases hfd : afind s.items ptr with
      | none =>
        simp only [hfd] at h
        exact absurd h (by simp)
      | some d =>
        simp only [hfd, DownloadManager.DownloadCancelledInternal,
          Option.some.injEq] at h
        rw [← h]
        exact ⟨rfl, rfl⟩

theorem fileSelected_frame (s : MState) (path : MPath) (download_id : Int)
    (s' : MState)
    (h : DownloadManager.FileSelected s path download_id = some s') :
    s'.history_downloads = s.history_downloads ∧
    s'.download_history = s.download_history := by
  unfold DownloadManager.FileSelected DownloadManager.GetActiveDownloadItem at h
  cases hact : afind s.active_downloads download_id with
  | none =>
    simp only [hact, Option.some.injEq] at h
    rw [← h]
    exact ⟨rfl, rfl⟩
  | some v =>
    cases v with
    | none =>
      simp only [hact, Option.some.injEq] at h
      rw [← h]
      exact ⟨rfl, rfl⟩
    | some ptr =>
      simp only [hact] at h
      cases hfd : afind s.items ptr with
      | none =>
        simp only [hfd] at h
        exact absurd h (by simp)
      | some d =>
        simp only [hfd] at h
        split at h
        · have hf := continueDownloadWithPath_frame _ ptr path s' h
          exact hf
        · have hf := continueDownloadWithPath_frame _ ptr path s' h
          exact hf

theorem addDownloadItemToHistory_inv (s : MState) (ptr : Nat) (db_handle : Int)
    (s2 : MState)
    (h : DownloadManager.AddDownloadItemToHistory s ptr db_handle = some s2)
    (hinv : histHandleInv s) : histHandleInv s2 := by
  unfold DownloadManager.AddDownloadItemToHistory at h
  cases hfd : afind s.items ptr with
  | none =>
    rw [hfd] at h
    exact absurd h (by simp)
  | some d =>
    simp only [hfd, Option.some.injEq] at h
    by_cases hdb : db_handle = kUninitializedHandle
    · rw [if_pos hdb] at h
      rw [← h]
      refine ⟨?_, ?_, ?_⟩
      · intro k hk
        rcases (akeys_ainsert_mem s.history_downloads _ k ptr).mp hk with h1 | h1
        · exact hinv.1 k h1
        · show k ≠ kUninitializedHandle
          rw [h1]
          show (GetNextFakeDbHandle s.download_history).1 ≠ kUninitializedHandle
          unfold GetNextFakeDbHandle
          exact Int.ne_of_lt hinv.2.2
      · exact akeys_ainsert_nodup s.history_downloads _ ptr hinv.2.1
      · show (GetNextFakeDbHandle s.download_history).2.next_fake_db_handle <
          kUninitializedHandle
        show s.download_history.next_fake_db_handle - 1 < kUninitializedHandle
        have := hinv.2.2
        omega
    · rw [if_neg hdb] at h
      rw [← h]
      refine ⟨?_, ?_, ?_⟩
      · intro k hk
        rcases (akeys_ainsert_mem s.history_downloads _ k ptr).mp hk with h1 | h1
        · exact hinv.1 k h1
        · rw [h1]
          exact hdb
      · exact akeys_ainsert_nodup s.history_downloads _ ptr hinv.2.1
      · exact hinv.2.2

theorem onCreateDownloadEntryComplete_inv (s : MState) (download_id db_handle : Int)
    (s' : MState)
    (h : DownloadManager.OnCreateDownloadEntryComplete s download_id db_handle =
      some s')
    (hinv : histHandleInv s) : histHandleInv s' := by
  unfold DownloadManager.OnCreateDownloadEntryComplete
    DownloadManager.GetActiveDownloadItem at h
  cases hact : afind s.active_downloads download_id with
  | none =>
    simp only [hact, Option.some.injEq] at h
    rw [← h]
    exact ⟨hinv.1, hinv.2.1, hinv.2.2⟩
  | some v =>
    cases v with
    | none =>
      simp only [hact, Option.some.injEq] at h
      rw [← h]
      exact ⟨hinv.1, hinv.2.1, hinv.2.2⟩
    | some ptr =>
      simp only [hact] at h
      cases hadd : DownloadManager.AddDownloadItemToHistory s ptr db_handle with
      | none =>
        simp only [hadd] at h
        exact absurd h (by simp)
      | some s2 =>
        have hinv2 := addDownloadItemToHistory_inv s ptr db_handle s2 hadd hinv
        simp only [hadd] at h
        cases hfd : afind s2.items ptr with
        | none =>
          simp only [hfd] at h
          exact absurd h (by simp)
        | some d =>
          simp only [hfd] at h
          split at h
          · cases hmc : DownloadManager.MaybeCompleteDownload
                { s2 with events := s2.events ++ [MEvent.ModelChanged] } ptr with
            | none =>
              simp only [hmc] at h
              exact absurd h (by simp)
            | some r =>
              obtain ⟨s4, b⟩ := r
              simp only [hmc, Option.some.injEq] at h
              have hf := maybeCompleteDownload_frame _ ptr s4 b hmc
              rw [← h]
              exact histHandleInv_of_frame s2 s4 hf.1 hf.2 hinv2
          · simp only [Option.some.injEq] at h
            rw [← h]
            exact ⟨hinv2.1, hinv2.2.1, hinv2.2.2⟩

theorem onQueryLoop_inv (entries : List DownloadManager.DownloadHistoryInfo) :
    ∀ s : MState, histHandleInv s →
    (∀ e ∈ entries, e.db_handle ≠ kUninitializedHandle) →
    histHandleInv (entries.foldl (fun (st : MState)
        (info : DownloadManager.DownloadHistoryInfo) =>
      let p := st.next_ptr
      let d := DownloadManager.itemFromHistoryInfo info
      { st with next_ptr := p + 1
                items := ainsert st.items p d
                downloads := sinsert st.downloads p
                history_downloads := ainsert st.history_downloads info.db_handle p }) s) := by
  induction entries with
  | nil =>
    intro s hinv _
    exact hinv
  | cons e rest ih =>
    intro s hinv hyp
    rw [List.foldl_cons]
    apply ih
    · refine ⟨?_, ?_, ?_⟩
      · intro k hk
        rcases (akeys_ainsert_mem s.history_downloads e.db_handle k s.next_ptr).mp hk
          with h1 | h1
        · exact hinv.1 k h1
        · rw [h1]
          exact hyp e (List.mem_cons_self e rest)
      · exact akeys_ainsert_nodup _ _ _ hinv.2.1
      · exact hinv.2.2
    · intro e2 he2
      exact hyp e2 (List.mem_cons_of_mem e he2)

theorem onQueryDownloadEntriesComplete_inv (s : MState)
    (entries : List DownloadManager.DownloadHistoryInfo)
    (hinv : histHandleInv s)
    (hyp : ∀ e ∈ entries, e.db_handle ≠ kUninitializedHandle) :
    histHandleInv (DownloadManager.OnQueryDownloadEntriesComplete s entries) := by
  unfold DownloadManager.OnQueryDownloadEntriesComplete
  have h := onQueryLoop_inv entries s hinv hyp
  exact ⟨h.1, h.2.1, h.2.2⟩

theorem savePageAsDownloadStarted_inv (s : MState) (download : DownloadItem)
    (s' : MState)
    (h : DownloadManager.SavePageAsDownloadStarted s download = some s')
    (hinv : histHandleInv s) : histHandleInv s' := by
  unfold DownloadManager.SavePageAsDownloadStarted at h
  cases hadd : DownloadManager.AddDownloadItemToHistory
      { s with next_ptr := s.next_ptr + 1
               items := ainsert s.items s.next_ptr download
               save_page_as_downloads := sinsert s.save_page_as_downloads s.next_ptr
               downloads := sinsert s.downloads s.next_ptr }
      s.next_ptr kUninitializedHandle with
  | none =>
    simp only [hadd] at h
    exact absurd h (by simp)
  | some s1 =>
    simp only [hadd, Option.some.injEq] at h
    have hinv1 := addDownloadItemToHistory_inv _ s.next_ptr kUninitializedHandle s1
      hadd ⟨hinv.1, hinv.2.1, hinv.2.2⟩
    rw [← h]
    exact ⟨hinv1.1, hinv1.2.1, hinv1.2.2⟩

theorem removeDownload_inv (s : MState) (download_handle : Int)
    (hinv : histHandleInv s) :
    histHandleInv (DownloadManager.RemoveDownload s download_handle) := by
  unfold DownloadManager.RemoveDownload
  cases hfind : afind s.history_downloads download_handle with
  | none => exact hinv
  | some ptr =>
    refine ⟨?_, akeys_aerase_nodup _ _ hinv.2.1, hinv.2.2⟩
    intro k hk
    exact hinv.1 k (akeys_aerase_mem _ _ _ hk)

theorem removeDownloadsBetween_inv (s : MState) (remove_begin remove_end : Int)
    (s' : MState) (n : Nat)
    (h : DownloadManager.RemoveDownloadsBetween s remove_begin remove_end =
      some (s', n))
    (hinv : histHandleInv s) : histHandleInv s' := by
  unfold DownloadManager.RemoveDownloadsBetween at h
  cases hloop : DownloadManager.RemoveDownloadsBetweenLoop
      { s with events := s.events ++
          [MEvent.HistoryRemoveEntriesBetween remove_begin remove_end] }
      ({ s with events := s.events ++
          [MEvent.HistoryRemoveEntriesBetween remove_begin remove_end] } :
        MState).history_downloads
      remove_begin remove_end [] with
  | none =>
    simp only [hloop] at h
    exact absurd h (by simp)
  | some r =>
    obtain ⟨s1, pending⟩ := r
    simp only [hloop] at h
    have hls := removeDownloadsBetweenLoop_spec _ _ remove_begin remove_end []
      s1 pending hloop
    have hhist : s1.history_downloads = ((s.history_downloads.filter
        (selectedForRemoval s.items remove_begin remove_end)).map Prod.fst).foldl
          aerase s.history_downloads := hls.2.1
    have hdh : s1.download_history = s.download_history :=
      hls.2.2.2.2.2.2.2.2.2.2.1
    have hinv1 : histHandleInv s1 := by
      refine ⟨?_, ?_, ?_⟩
      · intro k hk
        rw [hhist, foldl_aerase_int_filter] at hk
        refine hinv.1 k ?_
        exact (List.Sublist.map Prod.fst (List.filter_sublist _)).mem hk
      · rw [hhist, foldl_aerase_int_filter]
        exact (List.Sublist.map Prod.fst (List.filter_sublist _)).nodup hinv.2.1
      · rw [hdh]
        exact hinv.2.2
    split at h
    · simp only [Option.some.injEq, Prod.mk.injEq] at h
      obtain ⟨h1, _⟩ := h
      rw [← h1]
      exact hinv1
    · simp only [Option.some.injEq, Prod.mk.injEq] at h
      obtain ⟨h1, _⟩ := h
      rw [← h1]
      exact ⟨hinv1.1, hinv1.2.1, hinv1.2.2⟩

theorem shutdown_inv (s : MState) (hinv : histHandleInv s) :
    histHandleInv (DownloadManager.Shutdown s) := by
  unfold DownloadManager.Shutdown
  split
  · exact hinv
  · refine ⟨?_, ?_, ?_⟩
    · intro k hk
      exact absurd hk (by simp [akeys])
    · simp [akeys]
    · show initialDownloadHistory.next_fake_db_handle < kUninitializedHandle
      decide

/-- The Coordinator states reachable from a freshly initialized manager by
the modelled operations.  The journal-replay step carries the History Journal
Adapter's interface guarantee that persisted entries hold assigned (non
sentinel) durable handles. -/
inductive Reachable : MState → Prop
  | init : Reachable initialState
  | shutdown (s : MState) :
      Reachable s → Reachable (DownloadManager.Shutdown s)
  | createDownloadItem (s : MState) (info : DownloadManager.DownloadCreateInfo)
      (otr : Bool) :
      Reachable s → Reachable (DownloadManager.CreateDownloadItem s info otr)
  | continueDownloadWithPath (s : MState) (ptr : Nat) (path : MPath) (s' : MState) :
      Reachable s →
      DownloadManager.ContinueDownloadWithPath s ptr path = some s' → Reachable s'
  | updateDownload (s : MState) (download_id size : Int) (s' : MState) :
      Reachable s →
      DownloadManager.UpdateDownload s download_id size = some s' → Reachable s'
  | onAllDataSaved (s : MState) (download_id size : Int) (s' : MState) :
      Reachable s →
      DownloadManager.OnAllDataSaved s download_id size = some s' → Reachable s'
  | downloadCancelled (s : MState) (download_id : Int) (s' : MState) :
      Reachable s →
      DownloadManager.DownloadCancelled s download_id = some s' → Reachable s'
  | onDownloadError (s : MState) (download_id size os_error : Int) (s' : MState) :
      Reachable s →
      DownloadManager.OnDownloadError s download_id size os_error = some s' →
      Reachable s'
  | removeDownload (s : MState) (download_handle : Int) :
      Reachable s → Reachable (DownloadManager.RemoveDownload s download_handle)
  | removeDownloadsBetween (s : MState) (remove_begin remove_end : Int)
      (s' : MState) (n : Nat) :
      Reachable s →
      DownloadManager.RemoveDownloadsBetween s remove_begin remove_end =
        some (s', n) → Reachable s'
  | checkDownloadUrlDone (s : MState) (download_id : Int) (is_dangerous_url : Bool)
      (s' : MState) :
      Reachable s →
      DownloadManager.CheckDownloadUrlDone s download_id is_dangerous_url =
        some s' → Reachable s'
  | fileSelected (s : MState) (path : MPath) (download_id : Int) (s' : MState) :
      Reachable s →
      DownloadManager.FileSelected s path download_id = some s' → Reachable s'
  | fileSelectionCanceled (s : MState) (download_id : Int) (s' : MState) :
      Reachable s →
      DownloadManager.FileSelectionCanceled s download_id = some s' → Reachable s'
  | onCreateDownloadEntryComplete (s : MState) (download_id db_handle : Int)
      (s' : MState) :
      Reachable s →
      DownloadManager.OnCreateDownloadEntryComplete s download_id db_handle =
        some s' → Reachable s'
  | onQueryDownloadEntriesComplete (s : MState)
      (entries : List DownloadManager.DownloadHistoryInfo) :
      Reachable s → (∀ e ∈ entries, e.db_handle ≠ kUninitializedHandle) →
      Reachable (DownloadManager.OnQueryDownloadEntriesComplete s entries)
  | savePageAsDownloadStarted (s : MState) (download : DownloadItem) (s' : MState) :
      Reachable s →
      DownloadManager.SavePageAsDownloadStarted s download = some s' → Reachable s'

/-- C10: in every reachable Coordinator state, no key of the durable index is
the uninitialized sentinel handle and no two entries share a handle —
AddDownloadItemToHistory substitutes a locally generated unique fake handle
whenever the journal's add-entry callback returns the sentinel. -/
theorem history_index_handles_valid (s : MState) (h : Reachable s) :
    (∀ k ∈ akeys s.history_downloads, k ≠ kUninitializedHandle) ∧
    (akeys s.history_downloads).Nodup := by
  have hinv : histHandleInv s := by
    induction h with
    | init =>
      refine ⟨?_, ?_, ?_⟩
      · intro k hk
        exact absurd hk (by simp [initialState, akeys])
      · simp [initialState, akeys]
      · decide
    | shutdown s hr ih => exact shutdown_inv s ih
    | createDownloadItem s info otr hr ih => exact ⟨ih.1, ih.2.1, ih.2.2⟩
    | continueDownloadWithPath s ptr path s' hr hop ih =>
      have hf := continueDownloadWithPath_frame s ptr path s' hop
      exact histHandleInv_of_frame s s' hf.1 hf.2 ih
    | updateDownload s download_id size s' hr hop ih =>
      have hf := updateDownload_frame s download_id size s' hop
      exact histHandleInv_of_frame s s' hf.1 hf.2 ih
    | onAllDataSaved s download_id size s' hr hop ih =>
      have hf := onAllDataSaved_frame s download_id size s' hop
      exact histHandleInv_of_frame s s' hf.1 hf.2 ih
    | downloadCancelled s download_id s' hr hop ih =>
      have hf := downloadCancelled_frame s download_id s' hop
      exact histHandleInv_of_frame s s' hf.1 hf.2 ih
    | onDownloadError s download_id size os_error s' hr hop ih =>
      have hf := onDownloadError_frame s download_id size os_error s' hop
      exact histHandleInv_of_frame s s' hf.1 hf.2 ih
    | removeDownload s download_handle hr ih => exact removeDownload_inv s _ ih
    | removeDownloadsBetween s remove_begin remove_end s' n hr hop ih =>
      exact removeDownloadsBetween_inv s remove_begin remove_end s' n hop ih
    | checkDownloadUrlDone s download_id is_dangerous_url s' hr hop ih =>
      have hf := checkDownloadUrlDone_frame s download_id is_dangerous_url s' hop
      exact histHandleInv_of_frame s s' hf.1 hf.2 ih
    | fileSelected s path download_id s' hr hop ih =>
      have hf := fileSelected_frame s path download_id s' hop
      exact histHandleInv_of_frame s s' hf.1 hf.2 ih
    | fileSelectionCanceled s download_id s' hr hop ih =>
      have hf := fileSelectionCanceled_frame s download_id s' hop
      exact histHandleInv_of_frame s s' hf.1 hf.2 ih
    | onCreateDownloadEntryComplete s download_id db_handle s' hr hop ih =>
      exact onCreateDownloadEntryComplete_inv s download_id db_handle s' hop ih
    | onQueryDownloadEntriesComplete s entries hr hyp ih =>
      exact onQueryDownloadEntriesComplete_inv s entries ih hyp
    | savePageAsDownloadStarted s download s' hr hop ih =>
      exact savePageAsDownloadStarted_inv s download s' hop ih
  exact ⟨hinv.1, hinv.2.1⟩

/-- One persisted journal entry with an assigned durable handle. -/
def c10entry : DownloadManager.DownloadHistoryInfo :=
  { db_handle := 3, start_time := 10, received_bytes := 100, total_bytes := 100,
    path := ["old.bin"], state := DownloadState.COMPLETE }

/-- A reachable state holding a replayed history entry and a fake handle
assigned through SavePageAsDownloadStarted. -/
def c10state : MState :=
  (DownloadManager.SavePageAsDownloadStarted
    (DownloadManager.OnQueryDownloadEntriesComplete initialState [c10entry])
    c2item).getD initialState

theorem history_index_handles_valid_witness :
    acontains c10state.history_downloads kUninitializedHandle = false ∧
    (akeys c10state.history_downloads).Nodup := by
  have hr : Reachable c10state :=
    Reachable.savePageAsDownloadStarted _ c2item c10state
      (Reachable.onQueryDownloadEntriesComplete initialState [c10entry]
        Reachable.init (by decide))
      (by decide)
  have h := history_index_handles_valid c10state hr
  refine ⟨?_, h.2⟩
  by_contra hc
  have hc2 : acontains c10state.history_downloads kUninitializedHandle = true := by
    cases hb : acontains c10state.history_downloads kUninitializedHandle
    · exact absurd hb hc
    · rfl
  exact h.1 kUninitializedHandle ((acontains_eq_true_iff _ _).mp hc2) rfl
